import Mathlib

/-
Verification of the customer record management engine of the core-banking
repository (customer-service): domain model, validator, record store
(PostgreSQL repository) and orchestrator (service layer), shallowly embedded
in Lean 4.

Modelling conventions, chosen to mirror the Go source:
- `time.Time` instants are modelled by `Time := Int`, an arbitrary totally
  ordered set of instants; `t1.After t2` is `t1 > t2`, `t1.Before t2` is
  `t1 < t2`.  The wall clock readings a validator derives from `time.Now()`
  (`now`, `now.AddDate(-18,0,0)`, `now.AddDate(-150,0,0)`) are threaded in as
  an explicit `Clock` record, since the embedding is pure.
- `uuid.UUID` values are opaque identifiers, modelled by `UUID := Nat`.
  Request ids are `Option UUID`: `none` models the empty string, `some u` a
  well-formed id (`uuid.Parse` failures on syntactically malformed non-empty
  strings are outside the model; every modelled non-empty id parses).
  `uuid.New()` draws on entropy, so each service operation that calls it
  receives the generated value as an explicit `freshId` argument.
- Go's string-typed enumerations (`CustomerStatus`, `AddressType`,
  `DocumentType`, `VerificationStatus`) remain `String`s, with the same
  constants and `IsValid` membership checks as `models/customer.go`.
- The repository's transparent field-level encryption of `tax_id` and
  `document_number` is elided from the record store model (rows hold the
  field values themselves); the cipher layer is modelled and verified
  separately below (section Encryptor), where its round-trip property is
  established, which is what justifies the elision.
- Database rows live in an explicit `Store`; every repository operation is a
  pure function from (store, arguments) to `Except RepoErr (result, store)`.
  The service layer is written against the `Repo` interface exactly as
  `CustomerService` is written against `repository.CustomerRepository`.
-/

namespace CoreBanking

/-- Instants of `time.Time`, as an abstract linear order. -/
abbrev Time := Int

/-- Opaque `uuid.UUID` values. -/
abbrev UUID := Nat

/-- The wall-clock readings the Go code takes via `time.Now()` and
`time.Now().AddDate(...)` during one request, passed explicitly. -/
structure Clock where
  now : Time
  /-- Model of `time.Now().AddDate(-18, 0, 0)` -/
  yearsAgo18 : Time
  /-- Model of `time.Now().AddDate(-150, 0, 0)` -/
  yearsAgo150 : Time
  deriving Repr, DecidableEq

/-! ## Domain model (`internal/models/customer.go`) -/

def CustomerStatusPending : String := "Pending"
def CustomerStatusActive : String := "Active"
def CustomerStatusInactive : String := "Inactive"
def CustomerStatusSuspended : String := "Suspended"
def CustomerStatusClosed : String := "Closed"

/-- Model of `CustomerStatus.IsValid` from `models/customer.go`. -/
def customerStatusIsValid (s : String) : Bool :=
  s == CustomerStatusPending || s == CustomerStatusActive ||
  s == CustomerStatusInactive || s == CustomerStatusSuspended ||
  s == CustomerStatusClosed

def AddressTypePhysical : String := "Physical"
def AddressTypeMailing : String := "Mailing"
def AddressTypeBusiness : String := "Business"

/-- Model of `AddressType.IsValid` from `models/customer.go`. -/
def addressTypeIsValid (s : String) : Bool :=
  s == AddressTypePhysical || s == AddressTypeMailing || s == AddressTypeBusiness

def DocumentTypePassport : String := "Passport"
def DocumentTypeDriversLicense : String := "DriversLicense"
def DocumentTypeNationalID : String := "NationalID"
def DocumentTypeSSN : String := "SSN"
def DocumentTypeTaxID : String := "TaxID"
def DocumentTypeUtilityBill : String := "UtilityBill"
def DocumentTypeBankStatement : String := "BankStatement"

/-- Model of `DocumentType.IsValid` from `models/customer.go`. -/
def documentTypeIsValid (s : String) : Bool :=
  s == DocumentTypePassport || s == DocumentTypeDriversLicense ||
  s == DocumentTypeNationalID || s == DocumentTypeSSN || s == DocumentTypeTaxID ||
  s == DocumentTypeUtilityBill || s == DocumentTypeBankStatement

def VerificationStatusPending : String := "Pending"
def VerificationStatusVerified : String := "Verified"
def VerificationStatusExpired : String := "Expired"
def VerificationStatusRejected : String := "Rejected"

/-- Model of `VerificationStatus.IsValid` from `models/customer.go`. -/
def verificationStatusIsValid (s : String) : Bool :=
  s == VerificationStatusPending || s == VerificationStatusVerified ||
  s == VerificationStatusExpired || s == VerificationStatusRejected

/-- Model of `models.Customer`. `version` is the optimistic-locking counter. -/
structure Customer where
  id : UUID
  customerNumber : String
  firstName : String
  middleName : Option String
  lastName : String
  dateOfBirth : Time
  taxId : String
  email : String
  phone : String
  status : String
  createdAt : Time
  updatedAt : Time
  createdBy : UUID
  updatedBy : Option UUID
  version : Int
  deriving Repr, DecidableEq

/-- Model of `models.Address`. -/
structure Address where
  id : UUID
  customerId : UUID
  addressType : String
  street1 : String
  street2 : Option String
  city : String
  state : String
  postalCode : String
  country : String
  isPrimary : Bool
  validFrom : Time
  validTo : Option Time
  createdAt : Time
  updatedAt : Time
  deriving Repr, DecidableEq

/-- Model of `models.CustomerDocument`. -/
structure CustomerDocument where
  id : UUID
  customerId : UUID
  documentType : String
  documentNumber : String
  issuingAuthority : String
  issuingCountry : String
  issueDate : Time
  expiryDate : Time
  verificationStatus : String
  verifiedAt : Option Time
  verifiedBy : Option UUID
  createdAt : Time
  updatedAt : Time
  deriving Repr, DecidableEq

/-- Model of `models.StatusChange`. -/
structure StatusChange where
  id : UUID
  customerId : UUID
  previousStatus : String
  newStatus : String
  reason : String
  changedBy : UUID
  changedAt : Time
  deriving Repr, DecidableEq

/-- Model of `models.SearchFilters`. -/
structure SearchFilters where
  firstName : String
  lastName : String
  email : String
  phone : String
  status : String
  fromDate : Option Time
  toDate : Option Time
  limit : Int
  offset : Int
  deriving Repr, DecidableEq

/-! ## Validator (`internal/validation/validation.go`)

The regular expressions of the source are hand-compiled to executable
character-list matchers with identical languages. -/

/-- Model of `validation.ValidationError`. -/
structure ValidationError where
  field : String
  message : String
  deriving Repr, DecidableEq

/-- Character class `[a-zA-Z0-9._%+-]` (local part of `EmailRegex`). -/
def emailLocalChar (c : Char) : Bool :=
  c.isAlpha || c.isDigit || c == '.' || c == '_' || c == '%' || c == '+' || c == '-'

/-- Character class `[a-zA-Z0-9.-]` (domain part of `EmailRegex`). -/
def emailDomainChar (c : Char) : Bool :=
  c.isAlpha || c.isDigit || c == '.' || c == '-'

/-- Split a character list at the first occurrence of `ch`; `none` when `ch`
does not occur. -/
def splitAtChar (ch : Char) : List Char → Option (List Char × List Char)
  | [] => none
  | c :: cs =>
    if c == ch then some ([], cs)
    else (splitAtChar ch cs).map (fun p => (c :: p.1, p.2))

/-- Model of `EmailRegex = ^[a-zA-Z0-9._%+-]+@[a-zA-Z0-9.-]+\.[a-zA-Z]{2,}$`.
The anchored regex matches exactly when the string splits at its first `@`
into a non-empty local part over `emailLocalChar`, and a domain that splits
at its last `.` into a non-empty part over `emailDomainChar` and a trailing
run of at least two letters. -/
def emailRegexMatch (s : String) : Bool :=
  match splitAtChar '@' s.toList with
  | none => false
  | some (localPart, domain) =>
    (!localPart.isEmpty) && localPart.all emailLocalChar &&
    (match splitAtChar '.' domain.reverse with
     | none => false
     | some (tldRev, domRev) =>
       (!domRev.isEmpty) && domRev.all emailDomainChar &&
       decide (2 ≤ tldRev.length) && tldRev.all Char.isAlpha)

/-- Model of `PhoneRegex = ^\+?[1-9]\d{1,14}$`. -/
def phoneRegexMatch (s : String) : Bool :=
  let cs := match s.toList with
    | '+' :: rest => rest
    | cs => cs
  match cs with
  | [] => false
  | c :: rest =>
    c.isDigit && c != '0' && rest.all Char.isDigit &&
    decide (1 ≤ rest.length) && decide (rest.length ≤ 14)

/-- Model of `USSSNRegex = ^\d{3}-\d{2}-\d{4}$`. -/
def usSSNRegexMatch (s : String) : Bool :=
  match s.toList with
  | [a, b, c, h1, d, e, h2, f, g, h, i] =>
    a.isDigit && b.isDigit && c.isDigit && h1 == '-' &&
    d.isDigit && e.isDigit && h2 == '-' &&
    f.isDigit && g.isDigit && h.isDigit && i.isDigit
  | _ => false

/-- Model of `UKNINumberRegex = ^[A-Z]{2}\d{6}[A-Z]$`. -/
def ukNINumberRegexMatch (s : String) : Bool :=
  match s.toList with
  | [a, b, d1, d2, d3, d4, d5, d6, z] =>
    a.isUpper && b.isUpper && d1.isDigit && d2.isDigit && d3.isDigit &&
    d4.isDigit && d5.isDigit && d6.isDigit && z.isUpper
  | _ => false

/-- Model of `EUTaxIDRegex = ^[A-Z]{2}\d{8,12}$`. -/
def euTaxIDRegexMatch (s : String) : Bool :=
  match s.toList with
  | a :: b :: rest =>
    a.isUpper && b.isUpper && rest.all Char.isDigit &&
    decide (8 ≤ rest.length) && decide (rest.length ≤ 12)
  | _ => false

/-- The default-branch pattern `^[A-Z0-9]{5,20}$` of `ValidateTaxID`. -/
def genericTaxIDRegexMatch (s : String) : Bool :=
  s.toList.all (fun c => c.isUpper || c.isDigit) &&
  decide (5 ≤ s.length) && decide (s.length ≤ 20)

/-- Model of `Validator.ValidateTaxID` from `validation.go`. -/
def ValidateTaxID (taxID country : String) : Option ValidationError :=
  if taxID.length < 5 ∨ taxID.length > 50 then
    some ⟨"tax_id", "must be between 5 and 50 characters"⟩
  else if country = "US" then
    if !usSSNRegexMatch taxID then
      some ⟨"tax_id", "invalid US SSN format (XXX-XX-XXXX)"⟩
    else none
  else if country = "UK" then
    if !ukNINumberRegexMatch taxID then
      some ⟨"tax_id", "invalid UK NINO format"⟩
    else none
  else if country = "DE" ∨ country = "FR" ∨ country = "IT" ∨ country = "ES" then
    if !euTaxIDRegexMatch taxID then
      some ⟨"tax_id", "invalid EU tax ID format"⟩
    else none
  else
    if !genericTaxIDRegexMatch taxID then
      some ⟨"tax_id", "invalid tax ID format"⟩
    else none

/-- Model of `customerpb.CreateCustomerRequest`, with proto zero values for absent
fields (empty string / nil timestamp as `none`). -/
structure CreateCustomerRequest where
  firstName : String
  middleName : String
  lastName : String
  dateOfBirth : Option Time
  taxId : String
  email : String
  phone : String
  createdBy : Option UUID
  deriving Repr, DecidableEq

/-- Model of `customerpb.UpdateCustomerRequest`. -/
structure UpdateCustomerRequest where
  id : Option UUID
  version : Int
  firstName : String
  middleName : String
  lastName : String
  dateOfBirth : Option Time
  taxId : String
  email : String
  phone : String
  updatedBy : Option UUID
  deriving Repr, DecidableEq

/-- Model of `customerpb.AddAddressRequest`. -/
structure AddAddressRequest where
  customerId : Option UUID
  addressType : String
  street1 : String
  street2 : String
  city : String
  state : String
  postalCode : String
  country : String
  isPrimary : Bool
  validFrom : Option Time
  validTo : Option Time
  deriving Repr, DecidableEq

/-- Model of `customerpb.AddDocumentRequest`. -/
structure AddDocumentRequest where
  customerId : Option UUID
  documentType : String
  documentNumber : String
  issuingAuthority : String
  issuingCountry : String
  issueDate : Option Time
  expiryDate : Option Time
  deriving Repr, DecidableEq

/-- Model of `customerpb.UpdateCustomerStatusRequest`. -/
structure UpdateCustomerStatusRequest where
  id : Option UUID
  newStatus : String
  reason : String
  changedBy : Option UUID
  deriving Repr, DecidableEq

/-- Model of `customerpb.SearchCustomersRequest`. -/
structure SearchCustomersRequest where
  firstName : String
  lastName : String
  email : String
  phone : String
  status : String
  fromDate : Option Time
  toDate : Option Time
  limit : Int
  offset : Int
  deriving Repr, DecidableEq

/-- Model of `Validator.ValidateCustomerCreate`: the field checks append errors in
source order (first name, last name, email, phone, date of birth, tax id).
Go's `len` on these ASCII fields coincides with `String.length`. -/
def ValidateCustomerCreate (clk : Clock) (req : CreateCustomerRequest) :
    List ValidationError :=
  (if req.firstName = "" then [⟨"first_name", "is required"⟩]
   else if req.firstName.length < 2 ∨ req.firstName.length > 100 then
     [⟨"first_name", "must be between 2 and 100 characters"⟩]
   else []) ++
  (if req.lastName = "" then [⟨"last_name", "is required"⟩]
   else if req.lastName.length < 2 ∨ req.lastName.length > 100 then
     [⟨"last_name", "must be between 2 and 100 characters"⟩]
   else []) ++
  (if req.email = "" then [⟨"email", "is required"⟩]
   else if !emailRegexMatch req.email then [⟨"email", "is invalid format"⟩]
   else []) ++
  (if req.phone ≠ "" ∧ !phoneRegexMatch req.phone then
     [⟨"phone", "is invalid format. Use international format e.g., +1234567890"⟩]
   else []) ++
  (match req.dateOfBirth with
   | none => [⟨"date_of_birth", "is required"⟩]
   | some dob =>
     (if dob > clk.yearsAgo18 then
        [⟨"date_of_birth", "customer must be at least 18 years old"⟩]
      else []) ++
     (if dob < clk.yearsAgo150 then
        [⟨"date_of_birth", "date of birth is too far in the past"⟩]
      else [])) ++
  (if req.taxId ≠ "" then
     match ValidateTaxID req.taxId "" with
     | some e => [e]
     | none => []
   else [])

/-- Model of `Validator.ValidateCustomerUpdate`.  Note: the update validator checks
only the 18-year lower bound on the date of birth, not the 150-year upper
bound, exactly as in the source. -/
def ValidateCustomerUpdate (clk : Clock) (req : UpdateCustomerRequest) :
    List ValidationError :=
  (if req.id = none then [⟨"id", "is required"⟩] else []) ++
  (if req.version = 0 then [⟨"version", "is required for optimistic locking"⟩]
   else []) ++
  (if req.firstName ≠ "" ∧ (req.firstName.length < 2 ∨ req.firstName.length > 100) then
     [⟨"first_name", "must be between 2 and 100 characters"⟩]
   else []) ++
  (if req.lastName ≠ "" ∧ (req.lastName.length < 2 ∨ req.lastName.length > 100) then
     [⟨"last_name", "must be between 2 and 100 characters"⟩]
   else []) ++
  (if req.email ≠ "" ∧ !emailRegexMatch req.email then
     [⟨"email", "is invalid format"⟩]
   else []) ++
  (if req.phone ≠ "" ∧ !phoneRegexMatch req.phone then
     [⟨"phone", "is invalid format. Use international format e.g., +1234567890"⟩]
   else []) ++
  (match req.dateOfBirth with
   | none => []
   | some dob =>
     if dob > clk.yearsAgo18 then
       [⟨"date_of_birth", "customer must be at least 18 years old"⟩]
     else []) ++
  (if req.taxId ≠ "" then
     match ValidateTaxID req.taxId "" with
     | some e => [e]
     | none => []
   else [])

/-- Model of `Validator.ValidateAddress`. -/
def ValidateAddress (req : AddAddressRequest) : List ValidationError :=
  (if req.customerId = none then [⟨"customer_id", "is required"⟩] else []) ++
  (if req.street1 = "" then [⟨"street1", "is required"⟩]
   else if req.street1.length > 200 then
     [⟨"street1", "must not exceed 200 characters"⟩]
   else []) ++
  (if req.city = "" then [⟨"city", "is required"⟩]
   else if req.city.length > 100 then [⟨"city", "must not exceed 100 characters"⟩]
   else []) ++
  (if req.state = "" then [⟨"state", "is required"⟩]
   else if req.state.length > 100 then [⟨"state", "must not exceed 100 characters"⟩]
   else []) ++
  (if req.postalCode = "" then [⟨"postal_code", "is required"⟩]
   else if req.postalCode.length > 20 then
     [⟨"postal_code", "must not exceed 20 characters"⟩]
   else []) ++
  (if req.country = "" then [⟨"country", "is required"⟩]
   else if req.country.length ≠ 2 then
     [⟨"country", "must be a 2-letter ISO country code"⟩]
   else []) ++
  (if req.addressType ≠ "" ∧ !addressTypeIsValid req.addressType then
     [⟨"address_type", "must be Physical, Mailing, or Business"⟩]
   else [])

/-- Model of `Validator.ValidateDocument`. -/
def ValidateDocument (clk : Clock) (req : AddDocumentRequest) :
    List ValidationError :=
  (if req.customerId = none then [⟨"customer_id", "is required"⟩] else []) ++
  (if req.documentType = "" then [⟨"document_type", "is required"⟩]
   else if !documentTypeIsValid req.documentType then
     [⟨"document_type", "is invalid document type"⟩]
   else []) ++
  (if req.documentNumber = "" then [⟨"document_number", "is required"⟩]
   else if req.documentNumber.length > 50 then
     [⟨"document_number", "must not exceed 50 characters"⟩]
   else []) ++
  (if req.issuingCountry = "" then [⟨"issuing_country", "is required"⟩]
   else if req.issuingCountry.length ≠ 2 then
     [⟨"issuing_country", "must be a 2-letter ISO country code"⟩]
   else []) ++
  (if req.issuingAuthority = "" then [⟨"issuing_authority", "is required"⟩]
   else []) ++
  (if req.issueDate = none then [⟨"issue_date", "is required"⟩] else []) ++
  (match req.expiryDate with
   | none => [⟨"expiry_date", "is required"⟩]
   | some expiry =>
     (if expiry < clk.now then [⟨"expiry_date", "must be in the future"⟩] else []) ++
     (match req.issueDate with
      | some issue => if expiry < issue then [⟨"expiry_date", "must be after issue date"⟩] else []
      | none => []))

/-- The allowed-transition map literal of `Validator.ValidateStatusTransition`. -/
def validTransitions : List (String × List String) :=
  [(CustomerStatusPending, [CustomerStatusActive, CustomerStatusClosed]),
   (CustomerStatusActive, [CustomerStatusInactive, CustomerStatusSuspended, CustomerStatusClosed]),
   (CustomerStatusInactive, [CustomerStatusActive, CustomerStatusSuspended, CustomerStatusClosed]),
   (CustomerStatusSuspended, [CustomerStatusActive, CustomerStatusInactive, CustomerStatusClosed]),
   (CustomerStatusClosed, [])]

/-- Model of `Validator.ValidateStatusTransition`: `none` is a nil error (transition
allowed); `some msg` the error message built by the source. -/
def ValidateStatusTransition (currentStatus newStatus : String) : Option String :=
  match (validTransitions.find? (fun p => p.1 == currentStatus)) with
  | none => some ("invalid current status: " ++ currentStatus)
  | some p =>
    if p.2.contains newStatus then none
    else some ("invalid status transition from " ++ currentStatus ++ " to " ++ newStatus)

/-- Model of `Validator.ValidateSearchFilters`. -/
def ValidateSearchFilters (req : SearchCustomersRequest) : List ValidationError :=
  (if req.limit < 0 then [⟨"limit", "must be non-negative"⟩] else []) ++
  (if req.limit > 100 then [⟨"limit", "must not exceed 100"⟩] else []) ++
  (if req.offset < 0 then [⟨"offset", "must be non-negative"⟩] else []) ++
  (if req.status ≠ "" ∧ !customerStatusIsValid req.status then
     [⟨"status", "is invalid status"⟩]
   else []) ++
  (if req.email ≠ "" ∧ !emailRegexMatch req.email then
     [⟨"email", "is invalid format"⟩]
   else []) ++
  (if req.phone ≠ "" ∧ !phoneRegexMatch req.phone then
     [⟨"phone", "is invalid format"⟩]
   else [])

/-! ## Record store interface (`internal/repository/repository.go`) -/

/-- Repository-level errors: `repository.ErrNotFound`,
`repository.ErrOptimisticLock`, and any other wrapped storage error. -/
inductive RepoErr where
  | notFound
  | optimisticLock (customerId : UUID)
  | other (msg : String)
  deriving Repr, DecidableEq

/-- The `Error()` strings of the repository errors. -/
def RepoErr.message : RepoErr → String
  | .notFound => "record not found"
  | .optimisticLock _ => "optimistic lock error"
  | .other msg => msg

instance {α β : Type} [DecidableEq α] [DecidableEq β] :
    DecidableEq (Except α β) := fun a b =>
  match a, b with
  | .error x, .error y =>
    if h : x = y then isTrue (by rw [h])
    else isFalse (fun hc => h (Except.error.inj hc))
  | .ok x, .ok y =>
    if h : x = y then isTrue (by rw [h])
    else isFalse (fun hc => h (Except.ok.inj hc))
  | .error _, .ok _ => isFalse (fun hc => Except.noConfusion hc)
  | .ok _, .error _ => isFalse (fun hc => Except.noConfusion hc)

/-- The `repository.CustomerRepository` interface, over an abstract store
state `σ`: each operation consumes a store and returns the Go method's
result together with the successor store.  Methods that mutate their model
argument in Go (setting ids, timestamps, version) return the mutated model. -/
structure Repo (σ : Type) where
  createCustomer : σ → Customer → Except RepoErr (Customer × σ)
  getCustomerByID : σ → UUID → Except RepoErr Customer
  updateCustomer : σ → Customer → Except RepoErr (Customer × σ)
  searchCustomers : σ → SearchFilters → Except RepoErr (List Customer)
  addAddress : σ → Address → Except RepoErr (Address × σ)
  updateAddress : σ → Address → Except RepoErr σ
  getCustomerAddresses : σ → UUID → Except RepoErr (List Address)
  addDocument : σ → CustomerDocument → Except RepoErr (CustomerDocument × σ)
  getCustomerDocuments : σ → UUID → Except RepoErr (List CustomerDocument)

/-! ## PostgreSQL record store (`internal/repository/postgres_repository.go`)

The relational tables are modelled by plain row lists; each SQL statement by
the corresponding pure list transformation.  `now` is the `time.Now().UTC()`
reading of the operation. -/

/-- The three tables of the schema, plus the persisted `StatusChange` audit
records.  Modelled from the spec: the spec describes StatusChange as a
persisted immutable audit record, but the schema in
`1_create_customers.up.sql` has no table for it and no repository operation
writes one; the field exists so that theorems can speak about what is (not)
persisted, and it is carried through every operation unchanged. -/
structure Store where
  customers : List Customer
  addresses : List Address
  documents : List CustomerDocument
  statusChanges : List StatusChange
  deriving Repr, DecidableEq

/-- Insertion step for `sortBy`. -/
def insertSorted {α : Type} (le : α → α → Bool) (a : α) : List α → List α
  | [] => [a]
  | b :: bs => if le a b then a :: b :: bs else b :: insertSorted le a bs

/-- Insertion sort; models a SQL `ORDER BY` clause (only the multiset of
rows matters to the theorems below, via `perm_sortBy`). -/
def sortBy {α : Type} (le : α → α → Bool) : List α → List α
  | [] => []
  | a :: as => insertSorted le a (sortBy le as)

/-- Comparator for `ORDER BY is_primary DESC, created_at DESC` on addresses. -/
def addrOrder (a b : Address) : Bool :=
  if a.isPrimary != b.isPrimary then a.isPrimary else decide (a.createdAt ≥ b.createdAt)

/-- Comparator for `ORDER BY created_at DESC` on documents. -/
def docOrder (a b : CustomerDocument) : Bool :=
  decide (a.createdAt ≥ b.createdAt)

/-- Comparator for `ORDER BY created_at DESC` on customers. -/
def custOrder (a b : Customer) : Bool :=
  decide (a.createdAt ≥ b.createdAt)

/-- Model of `pgCustomerRepository.CreateCustomer`: stamps timestamps, sets
`version = 1`, inserts; a duplicate customer number (UNIQUE column) or
duplicate primary key makes the INSERT fail. -/
def pgCreateCustomer (now : Time) (st : Store) (c0 : Customer) :
    Except RepoErr (Customer × Store) :=
  let c := { c0 with createdAt := now, updatedAt := now, version := 1 }
  if st.customers.any (fun r => r.customerNumber == c.customerNumber || r.id == c.id) then
    .error (.other "failed to create customer: duplicate key value violates unique constraint")
  else
    .ok (c, { st with customers := st.customers ++ [c] })

/-- Model of `pgCustomerRepository.GetCustomerByID`. -/
def pgGetCustomerByID (st : Store) (cid : UUID) : Except RepoErr Customer :=
  match st.customers.find? (fun r => r.id == cid) with
  | some c => .ok c
  | none => .error .notFound

/-- Model of `pgCustomerRepository.UpdateCustomer`: bumps the in-memory version,
issues `UPDATE ... WHERE id = $1 AND version = $14` with the *old* version,
and fails with the optimistic-lock error when zero rows are affected. -/
def pgUpdateCustomer (now : Time) (st : Store) (c0 : Customer) :
    Except RepoErr (Customer × Store) :=
  let c := { c0 with updatedAt := now, version := c0.version + 1 }
  let hit (r : Customer) : Bool := r.id == c.id && r.version == c.version - 1
  if st.customers.any hit then
    .ok (c, { st with customers := st.customers.map (fun r => if hit r then c else r) })
  else
    .error (.optimisticLock c.id)

/-- The conjunctive row filter built by `pgCustomerRepository.SearchCustomers`
(ILIKE substring matches, exact status match, creation-date range). -/
def listContains (needle : List Char) : List Char → Bool
  | [] => needle.isEmpty
  | c :: cs => needle.isPrefixOf (c :: cs) || listContains needle cs

/-- Predicate for `column ILIKE` with a pattern wrapped in percent signs: case-insensitive substring match. -/
def ilikeContains (column pattern : String) : Bool :=
  listContains (pattern.toList.map Char.toLower) (column.toList.map Char.toLower)

def matchesFilters (f : SearchFilters) (c : Customer) : Bool :=
  (f.firstName == "" || ilikeContains c.firstName f.firstName) &&
  (f.lastName == "" || ilikeContains c.lastName f.lastName) &&
  (f.email == "" || ilikeContains c.email f.email) &&
  (f.phone == "" || ilikeContains c.phone f.phone) &&
  (f.status == "" || c.status == f.status) &&
  (match f.fromDate with | some t => decide (c.createdAt ≥ t) | none => true) &&
  (match f.toDate with | some t => decide (c.createdAt ≤ t) | none => true)

/-- Model of `pgCustomerRepository.SearchCustomers`: filter, order by creation time
descending, apply `LIMIT` (default 50) and `OFFSET` (default 0). -/
def pgSearchCustomers (st : Store) (f : SearchFilters) :
    Except RepoErr (List Customer) :=
  let limit : Int := if f.limit > 0 then f.limit else 50
  let offset : Int := if f.offset > 0 then f.offset else 0
  .ok (((sortBy custOrder (st.customers.filter (matchesFilters f))).drop offset.toNat).take limit.toNat)

/-- Model of `pgCustomerRepository.AddAddress`: stamps timestamps and inserts; a
duplicate primary key makes the INSERT fail. -/
def pgAddAddress (now : Time) (st : Store) (a0 : Address) :
    Except RepoErr (Address × Store) :=
  let a := { a0 with createdAt := now, updatedAt := now }
  if st.addresses.any (fun r => r.id == a.id) then
    .error (.other "failed to add address: duplicate key value violates unique constraint")
  else
    .ok (a, { st with addresses := st.addresses ++ [a] })

/-- Model of `pgCustomerRepository.UpdateAddress`: `UPDATE addresses SET ... WHERE
id = $1`.  The SET list covers every column except `id`, `customer_id` and
`created_at`, which keep their stored values; zero affected rows is not an
error. -/
def pgUpdateAddress (now : Time) (st : Store) (a : Address) :
    Except RepoErr Store :=
  .ok { st with addresses := st.addresses.map (fun r =>
          if r.id == a.id then
            { r with addressType := a.addressType, street1 := a.street1,
                     street2 := a.street2, city := a.city, state := a.state,
                     postalCode := a.postalCode, country := a.country,
                     isPrimary := a.isPrimary, validFrom := a.validFrom,
                     validTo := a.validTo, updatedAt := now }
          else r) }

/-- Model of `pgCustomerRepository.GetCustomerAddresses`. -/
def pgGetCustomerAddresses (st : Store) (cid : UUID) :
    Except RepoErr (List Address) :=
  .ok (sortBy addrOrder (st.addresses.filter (fun a => a.customerId == cid)))

/-- Model of `pgCustomerRepository.AddDocument`. -/
def pgAddDocument (now : Time) (st : Store) (d0 : CustomerDocument) :
    Except RepoErr (CustomerDocument × Store) :=
  let d := { d0 with createdAt := now, updatedAt := now }
  if st.documents.any (fun r => r.id == d.id) then
    .error (.other "failed to add document: duplicate key value violates unique constraint")
  else
    .ok (d, { st with documents := st.documents ++ [d] })

/-- Model of `pgCustomerRepository.GetCustomerDocuments`. -/
def pgGetCustomerDocuments (st : Store) (cid : UUID) :
    Except RepoErr (List CustomerDocument) :=
  .ok (sortBy docOrder (st.documents.filter (fun d => d.customerId == cid)))

/-- The PostgreSQL-backed `CustomerRepository` instance. -/
def pgRepo (now : Time) : Repo Store where
  createCustomer := pgCreateCustomer now
  getCustomerByID := pgGetCustomerByID
  updateCustomer := pgUpdateCustomer now
  searchCustomers := pgSearchCustomers
  addAddress := pgAddAddress now
  updateAddress := pgUpdateAddress now
  getCustomerAddresses := pgGetCustomerAddresses
  addDocument := pgAddDocument now
  getCustomerDocuments := pgGetCustomerDocuments

/-! ## Orchestrator (`internal/service/customer_service.go`) -/

/-- The gRPC status codes the service layer returns, with their payloads. -/
inductive ServiceErr where
  | invalidArgument (errs : List ValidationError)
  | invalidArgumentMsg (msg : String)
  | notFound (msg : String)
  | aborted (msg : String)
  | failedPrecondition (msg : String)
  | internal (msg : String)
  deriving Repr, DecidableEq

/-- Model of `stringPtr` helper of the service layer. -/
def stringPtr (s : String) : Option String :=
  if s = "" then none else some s

namespace CustomerService

/-- Model of `CustomerService.CreateCustomer`.  `freshId` is the `uuid.New()` value,
`custNum` the `generateCustomerNumber()` value. -/
def CreateCustomer {σ : Type} (R : Repo σ) (clk : Clock) (freshId : UUID)
    (custNum : String) (st : σ) (req : CreateCustomerRequest) :
    Except ServiceErr (Customer × σ) :=
  let errs := ValidateCustomerCreate clk req
  if errs ≠ [] then .error (.invalidArgument errs)
  else
    let customer : Customer :=
      { id := freshId, customerNumber := custNum, firstName := req.firstName,
        middleName := stringPtr req.middleName, lastName := req.lastName,
        dateOfBirth := req.dateOfBirth.getD 0, taxId := req.taxId,
        email := req.email, phone := req.phone, status := CustomerStatusPending,
        createdAt := 0, updatedAt := 0, createdBy := req.createdBy.getD 0,
        updatedBy := none, version := 0 }
    match R.createCustomer st customer with
    | .error e => .error (.internal ("failed to create customer: " ++ e.message))
    | .ok (c, st1) => .ok (c, st1)

/-- The partial-update field application of `CustomerService.UpdateCustomer`:
an absent (empty / nil) request field leaves the loaded value unchanged. -/
def applyUpdateFields (c : Customer) (req : UpdateCustomerRequest) : Customer :=
  let c := if req.firstName ≠ "" then { c with firstName := req.firstName } else c
  let c := if req.middleName ≠ "" then { c with middleName := stringPtr req.middleName } else c
  let c := if req.lastName ≠ "" then { c with lastName := req.lastName } else c
  let c := match req.dateOfBirth with
    | some dob => { c with dateOfBirth := dob }
    | none => c
  let c := if req.taxId ≠ "" then { c with taxId := req.taxId } else c
  let c := if req.email ≠ "" then { c with email := req.email } else c
  let c := if req.phone ≠ "" then { c with phone := req.phone } else c
  match req.updatedBy with
  | some u => { c with updatedBy := some u }
  | none => c

/-- Model of `CustomerService.UpdateCustomer`: validate, load the current row, apply
the request fields that are present, persist via the repository, mapping
`*repository.ErrOptimisticLock` to `Aborted` and everything else to
`Internal`. -/
def UpdateCustomer {σ : Type} (R : Repo σ) (clk : Clock) (st : σ)
    (req : UpdateCustomerRequest) : Except ServiceErr (Customer × σ) :=
  let errs := ValidateCustomerUpdate clk req
  if errs ≠ [] then .error (.invalidArgument errs)
  else
    match req.id with
    | none => .error (.invalidArgumentMsg "invalid customer id")
    | some cid =>
      match R.getCustomerByID st cid with
      | .error .notFound => .error (.notFound "customer not found")
      | .error e => .error (.internal ("failed to get customer: " ++ e.message))
      | .ok customer =>
        let customer := applyUpdateFields customer req
        match R.updateCustomer st customer with
        | .error (.optimisticLock _) =>
          .error (.aborted "customer was modified by another process")
        | .error e => .error (.internal ("failed to update customer: " ++ e.message))
        | .ok (c, st1) => .ok (c, st1)

/-- The search response: `Total` is `int32(len(protoCustomers))`. -/
structure SearchCustomersResponse where
  customers : List Customer
  total : Int
  deriving Repr, DecidableEq

/-- Model of `CustomerService.SearchCustomers`. -/
def SearchCustomers {σ : Type} (R : Repo σ) (st : σ)
    (req : SearchCustomersRequest) : Except ServiceErr SearchCustomersResponse :=
  let errs := ValidateSearchFilters req
  if errs ≠ [] then .error (.invalidArgument errs)
  else
    let filters : SearchFilters :=
      { firstName := req.firstName, lastName := req.lastName,
        email := req.email, phone := req.phone, status := req.status,
        fromDate := req.fromDate, toDate := req.toDate,
        limit := req.limit, offset := req.offset }
    match R.searchCustomers st filters with
    | .error e => .error (.internal ("failed to search customers: " ++ e.message))
    | .ok customers => .ok { customers := customers, total := (customers.length : Int) }

/-- The loop of `CustomerService.AddAddress` that unsets `is_primary` on
every existing primary address before a new primary is inserted. -/
def unsetPrimaries {σ : Type} (R : Repo σ) : σ → List Address → Except ServiceErr σ
  | st, [] => .ok st
  | st, a :: rest =>
    if a.isPrimary then
      match R.updateAddress st { a with isPrimary := false } with
      | .error e =>
        .error (.internal ("failed to update existing primary address: " ++ e.message))
      | .ok st1 => unsetPrimaries R st1 rest
    else unsetPrimaries R st rest

/-- Model of `CustomerService.AddAddress`: validate, verify the customer exists, load
the existing addresses, maintain the primary-flag invariant (demote existing
primaries when the new address is primary; promote the new address when no
primary exists), then insert.  `freshId` is the `uuid.New()` value. -/
def AddAddress {σ : Type} (R : Repo σ) (freshId : UUID) (clk : Clock) (st : σ)
    (req : AddAddressRequest) : Except ServiceErr (Address × σ) :=
  let errs := ValidateAddress req
  if errs ≠ [] then .error (.invalidArgument errs)
  else
    match req.customerId with
    | none => .error (.invalidArgumentMsg "invalid customer id")
    | some cid =>
      match R.getCustomerByID st cid with
      | .error .notFound => .error (.notFound "customer not found")
      | .error e => .error (.internal ("failed to get customer: " ++ e.message))
      | .ok _ =>
        match R.getCustomerAddresses st cid with
        | .error e => .error (.internal ("failed to get addresses: " ++ e.message))
        | .ok addresses =>
          let step : Except ServiceErr (σ × Bool) :=
            if req.isPrimary then
              (unsetPrimaries R st addresses).map (fun st1 => (st1, true))
            else if addresses.any (fun a => a.isPrimary) then .ok (st, false)
            else .ok (st, true)
          match step with
          | .error e => .error e
          | .ok (st1, isPrim) =>
            let address : Address :=
              { id := freshId, customerId := cid, addressType := req.addressType,
                street1 := req.street1, street2 := stringPtr req.street2,
                city := req.city, state := req.state,
                postalCode := req.postalCode, country := req.country,
                isPrimary := isPrim, validFrom := req.validFrom.getD clk.now,
                validTo := req.validTo, createdAt := 0, updatedAt := 0 }
            match R.addAddress st1 address with
            | .error e => .error (.internal ("failed to add address: " ++ e.message))
            | .ok (a, st2) => .ok (a, st2)

/-- Model of `isIdentityDocument` from `customer_service.go`. -/
def isIdentityDocument (docType : String) : Bool :=
  docType == DocumentTypePassport || docType == DocumentTypeDriversLicense ||
  docType == DocumentTypeNationalID || docType == DocumentTypeSSN

/-- Model of `CustomerService.AddDocument`: validate, verify the customer exists,
persist the document with verification status `Pending`, then, when the
customer is `Pending` and the re-fetched document set contains a verified
identity document, auto-activate the customer (any update failure, including
an optimistic-lock failure, is wrapped as `Internal`). -/
def AddDocument {σ : Type} (R : Repo σ) (freshId : UUID) (clk : Clock) (st : σ)
    (req : AddDocumentRequest) : Except ServiceErr (CustomerDocument × σ) :=
  let errs := ValidateDocument clk req
  if errs ≠ [] then .error (.invalidArgument errs)
  else
    match req.customerId with
    | none => .error (.invalidArgumentMsg "invalid customer id")
    | some cid =>
      match R.getCustomerByID st cid with
      | .error .notFound => .error (.notFound "customer not found")
      | .error e => .error (.internal ("failed to get customer: " ++ e.message))
      | .ok customer =>
        let doc : CustomerDocument :=
          { id := freshId, customerId := cid, documentType := req.documentType,
            documentNumber := req.documentNumber,
            issuingAuthority := req.issuingAuthority,
            issuingCountry := req.issuingCountry,
            issueDate := req.issueDate.getD 0, expiryDate := req.expiryDate.getD 0,
            verificationStatus := VerificationStatusPending,
            verifiedAt := none, verifiedBy := none, createdAt := 0, updatedAt := 0 }
        match R.addDocument st doc with
        | .error e => .error (.internal ("failed to add document: " ++ e.message))
        | .ok (doc1, st1) =>
          if customer.status = CustomerStatusPending then
            match R.getCustomerDocuments st1 cid with
            | .error e => .error (.internal ("failed to get documents: " ++ e.message))
            | .ok docs =>
              if docs.any (fun d =>
                  isIdentityDocument d.documentType &&
                  d.verificationStatus == VerificationStatusVerified) then
                match R.updateCustomer st1 { customer with status := CustomerStatusActive } with
                | .error e =>
                  .error (.internal ("failed to update customer status: " ++ e.message))
                | .ok (_, st2) => .ok (doc1, st2)
              else .ok (doc1, st1)
          else .ok (doc1, st1)

/-- Model of `CustomerService.UpdateCustomerStatus`: require id, target status and
reason, load the customer, validate the transition, persist the new status
(any update failure, including an optimistic-lock failure, is wrapped as
`Internal`), then build the StatusChange record — which is only logged with
`fmt.Printf` and returned in the response, never persisted. -/
def UpdateCustomerStatus {σ : Type} (R : Repo σ) (freshId : UUID) (clk : Clock)
    (st : σ) (req : UpdateCustomerStatusRequest) :
    Except ServiceErr (Customer × StatusChange × σ) :=
  match req.id with
  | none => .error (.invalidArgumentMsg "id is required")
  | some cid =>
    if req.newStatus = "" then .error (.invalidArgumentMsg "new_status is required")
    else if req.reason = "" then .error (.invalidArgumentMsg "reason is required")
    else
      match R.getCustomerByID st cid with
      | .error .notFound => .error (.notFound "customer not found")
      | .error e => .error (.internal ("failed to get customer: " ++ e.message))
      | .ok customer =>
        match ValidateStatusTransition customer.status req.newStatus with
        | some m => .error (.failedPrecondition m)
        | none =>
          let previousStatus := customer.status
          let customer1 :=
            { customer with status := req.newStatus,
                            updatedBy := match req.changedBy with
                              | some u => some u
                              | none => customer.updatedBy }
          match R.updateCustomer st customer1 with
          | .error e =>
            .error (.internal ("failed to update customer status: " ++ e.message))
          | .ok (c, st1) =>
            let statusChange : StatusChange :=
              { id := freshId, customerId := cid, previousStatus := previousStatus,
                newStatus := req.newStatus, reason := req.reason,
                changedBy := req.changedBy.getD 0, changedAt := clk.now }
            .ok (c, statusChange, st1)

end CustomerService

/-! ## Cipher service (`internal/encryption/encryptor.go`)

Byte strings are `List Nat` with entries below 256.  `Encrypt` seals the
plaintext with AES-256-GCM under a per-call random nonce, prepends the nonce
(`gcm.Seal(nonce, nonce, plaintext, nil)`) and base64-encodes the result
(`base64.StdEncoding`); `Decrypt` inverts this.  The AES-GCM primitive
itself is the Go standard library's, outside this repository: it is
abstracted as an `AEAD` record whose `seal`/`aeadOpen` pair is assumed
correct (`aeadOpen key nonce (seal key nonce pt) = some pt`), which is the
contract of `cipher.AEAD`.  Base64 is fully modelled, including padding,
and proved to round-trip.  The random nonce is an explicit argument. -/

/-- The standard base64 alphabet, as ASCII codes: index `n` (a sextet) to
its encoding character. -/
def b64Char (n : Nat) : Nat :=
  if n < 26 then 65 + n
  else if n < 52 then 97 + (n - 26)
  else if n < 62 then 48 + (n - 52)
  else if n = 62 then 43
  else 47

/-- Inverse character lookup; `61` is the padding character `=` and is not
in the alphabet. -/
def b64Val (c : Nat) : Option Nat :=
  if 65 ≤ c ∧ c ≤ 90 then some (c - 65)
  else if 97 ≤ c ∧ c ≤ 122 then some (c - 97 + 26)
  else if 48 ≤ c ∧ c ≤ 57 then some (c - 48 + 52)
  else if c = 43 then some 62
  else if c = 47 then some 63
  else none

/-- Model of `base64.StdEncoding.EncodeToString`: three bytes to four characters,
with `=` padding on a trailing group of one or two bytes. -/
def b64Encode : List Nat → List Nat
  | a :: b :: c :: rest =>
    b64Char (a / 4) :: b64Char (a % 4 * 16 + b / 16) ::
    b64Char (b % 16 * 4 + c / 64) :: b64Char (c % 64) :: b64Encode rest
  | [a, b] => [b64Char (a / 4), b64Char (a % 4 * 16 + b / 16), b64Char (b % 16 * 4), 61]
  | [a] => [b64Char (a / 4), b64Char (a % 4 * 16), 61, 61]
  | [] => []

/-- Model of `base64.StdEncoding.DecodeString`: `none` on malformed input. -/
def b64Decode : List Nat → Option (List Nat)
  | [] => some []
  | c1 :: c2 :: c3 :: c4 :: rest =>
    (b64Val c1).bind (fun s1 =>
    (b64Val c2).bind (fun s2 =>
    if c3 = 61 then
      (if c4 = 61 ∧ rest = [] then some [s1 * 4 + s2 / 16] else none)
    else
      (b64Val c3).bind (fun s3 =>
      if c4 = 61 then
        (if rest = [] then some [s1 * 4 + s2 / 16, s2 % 16 * 16 + s3 / 4] else none)
      else
        (b64Val c4).bind (fun s4 =>
        (b64Decode rest).map (fun bs =>
          (s1 * 4 + s2 / 16) :: (s2 % 16 * 16 + s3 / 4) :: (s3 % 4 * 64 + s4) :: bs)))))
  | _ => none

/-- Recursion principle following the three-byte grouping of `b64Encode`. -/
def listThreeRec {motive : List Nat → Prop} (h0 : motive []) (h1 : ∀ a, motive [a])
    (h2 : ∀ a b, motive [a, b])
    (h3 : ∀ a b c rest, motive rest → motive (a :: b :: c :: rest)) :
    ∀ l, motive l
  | [] => h0
  | [a] => h1 a
  | [a, b] => h2 a b
  | a :: b :: c :: rest => h3 a b c rest (listThreeRec h0 h1 h2 h3 rest)

/-- The authenticated-encryption primitive `cipher.NewGCM(aes.NewCipher key)`
provides, abstracted: `gcmSeal key nonce plaintext` is the ciphertext-plus-tag,
`aeadOpen` its inverse (`none` on authentication failure). -/
structure AEAD where
  gcmSeal : List Nat → List Nat → List Nat → List Nat
  aeadOpen : List Nat → List Nat → List Nat → Option (List Nat)

/-- Model of `gcm.NonceSize()` for a standard GCM instance. -/
def gcmNonceSize : Nat := 12

/-- Model of `encryption.NewEncryptor`: any key length other than 32 bytes fails. -/
def NewEncryptor (key : List Nat) : Except String (List Nat) :=
  if key.length ≠ 32 then .error "encryption key must be exactly 32 bytes"
  else .ok key

/-- The three failure modes of `Encryptor.Decrypt`. -/
inductive DecryptErr where
  | decodeFailed
  | tooShort
  | authFailed
  deriving Repr, DecidableEq

/-- Model of `Encryptor.Encrypt`: empty input passes through; otherwise the nonce is
prepended to the sealed payload and the whole is base64-encoded. -/
def Encrypt (A : AEAD) (key nonce plaintext : List Nat) : List Nat :=
  if plaintext = [] then []
  else b64Encode (nonce ++ A.gcmSeal key nonce plaintext)

/-- Model of `Encryptor.Decrypt`: empty input passes through; otherwise base64-decode
(decode error on malformed input), check the payload holds at least one
nonce, split off the nonce, and open. -/
def Decrypt (A : AEAD) (key ciphertext : List Nat) : Except DecryptErr (List Nat) :=
  if ciphertext = [] then .ok []
  else
    match b64Decode ciphertext with
    | none => .error .decodeFailed
    | some data =>
      if data.length < gcmNonceSize then .error .tooShort
      else
        match A.aeadOpen key (data.take gcmNonceSize) (data.drop gcmNonceSize) with
        | some pt => .ok pt
        | none => .error .authFailed

/-! ## Concrete fixtures used by counterexamples and witnesses -/

/-- A trivially correct `AEAD` instance used to witness the cipher theorem
(its `gcmSeal` is the identity, its `aeadOpen` total). -/
def idAEAD : AEAD where
  gcmSeal := fun _ _ pt => pt
  aeadOpen := fun _ _ ct => some ct

/-- A clock with all readings zero (fields are only compared). -/
def clk0 : Clock := { now := 0, yearsAgo18 := 0, yearsAgo150 := 0 }

/-- A wall clock consistent with a session in 2026 (instants are encoded as
decimal `yyyymmdd`, an order-embedding on dates). -/
def clkAda : Clock := { now := 20260101, yearsAgo18 := 20080101, yearsAgo150 := 18760101 }

/-- The creation request of the spec example: Ada Lovelace with tax
identifier `123-45-6789` and no country code. -/
def adaCreateReq : CreateCustomerRequest :=
  { firstName := "Ada", middleName := "", lastName := "Lovelace",
    dateOfBirth := some 19900101, taxId := "123-45-6789",
    email := "ada@example.com", phone := "", createdBy := none }

/-- A customer whose persisted version is 2, i.e. one successful update has
already happened. -/
def custV2 : Customer :=
  { id := 1, customerNumber := "CUST-1", firstName := "Ada", middleName := none,
    lastName := "Lovelace", dateOfBirth := 19900101, taxId := "",
    email := "ada@example.com", phone := "", status := CustomerStatusActive,
    createdAt := 0, updatedAt := 0, createdBy := 0, updatedBy := none, version := 2 }

def storeV2 : Store :=
  { customers := [custV2], addresses := [], documents := [], statusChanges := [] }

/-- Replay of a previously successful update: it still carries the original
version 1, which is stale (the persisted version is 2). -/
def staleUpdateReq : UpdateCustomerRequest :=
  { id := some 1, version := 1, firstName := "", middleName := "", lastName := "",
    dateOfBirth := none, taxId := "", email := "ada.l@example.com", phone := "",
    updatedBy := none }

/-- A `Pending` customer with version 1, as just created. -/
def custPending : Customer :=
  { id := 1, customerNumber := "CUST-1", firstName := "John", middleName := none,
    lastName := "Doe", dateOfBirth := 19900101, taxId := "",
    email := "john@example.com", phone := "", status := CustomerStatusPending,
    createdAt := 0, updatedAt := 0, createdBy := 0, updatedBy := none, version := 1 }

def storePending : Store :=
  { customers := [custPending], addresses := [], documents := [], statusChanges := [] }

/-- A valid passport document request for customer 1. -/
def passportReq : AddDocumentRequest :=
  { customerId := some 1, documentType := "Passport", documentNumber := "AB1234567",
    issuingAuthority := "US State Dept", issuingCountry := "US",
    issueDate := some (-100), expiryDate := some 10000 }

/-- A valid status-change request for customer 1. -/
def activateReq : UpdateCustomerStatusRequest :=
  { id := some 1, newStatus := "Active", reason := "identity verified", changedBy := some 7 }

/-- A valid address request for customer 1 with `is_primary` unset. -/
def addressReq : AddAddressRequest :=
  { customerId := some 1, addressType := "Physical", street1 := "123 Main St",
    street2 := "", city := "Springfield", state := "IL", postalCode := "62704",
    country := "US", isPrimary := false, validFrom := none, validTo := none }

/-- An already verified passport on file for customer 1. -/
def verifiedPassport : CustomerDocument :=
  { id := 30, customerId := 1, documentType := "Passport",
    documentNumber := "ZZ999", issuingAuthority := "US State Dept",
    issuingCountry := "US", issueDate := -100, expiryDate := 10000,
    verificationStatus := VerificationStatusVerified, verifiedAt := some 0,
    verifiedBy := some 9, createdAt := -5, updatedAt := -5 }

/-- A mock repository in the style of the source's own `MockRepository`
with `nextErr` set: reads succeed with fixed results, every customer update
fails with the optimistic-lock error. -/
def lockFailRepo (c : Customer) (docs : List CustomerDocument) : Repo Unit where
  createCustomer := fun _ x => .ok (x, ())
  getCustomerByID := fun _ _ => .ok c
  updateCustomer := fun _ _ => .error (.optimisticLock c.id)
  searchCustomers := fun _ _ => .ok []
  addAddress := fun _ a => .ok (a, ())
  updateAddress := fun _ _ => .ok ()
  getCustomerAddresses := fun _ _ => .ok []
  addDocument := fun _ d => .ok (d, ())
  getCustomerDocuments := fun _ _ => .ok docs

/-- The five customer statuses. -/
def allCustomerStatuses : List String :=
  [CustomerStatusPending, CustomerStatusActive, CustomerStatusInactive,
   CustomerStatusSuspended, CustomerStatusClosed]

/-- The allowed-transition table exactly as the claim states it:
`Pending -> {Active, Closed}`, `Active -> {Inactive, Suspended, Closed}`,
`Inactive -> {Active, Suspended, Closed}`,
`Suspended -> {Active, Inactive, Closed}`, `Closed -> {}`. -/
def claimedTransitionPairs : List (String × String) :=
  [("Pending", "Active"), ("Pending", "Closed"),
   ("Active", "Inactive"), ("Active", "Suspended"), ("Active", "Closed"),
   ("Inactive", "Active"), ("Inactive", "Suspended"), ("Inactive", "Closed"),
   ("Suspended", "Active"), ("Suspended", "Inactive"), ("Suspended", "Closed")]

/-- Number of addresses of customer `cid` flagged primary. -/
def countPrimary (rows : List Address) (cid : UUID) : Nat :=
  (rows.filter (fun a => a.customerId == cid && a.isPrimary)).length

/-- Demote (unset `is_primary`, touch `updated_at`) every row whose id is
listed; the cumulative effect of the `UpdateAddress` calls issued by
`unsetPrimaries` against the PostgreSQL store. -/
def demoteIds (now : Time) (ids : List UUID) (rows : List Address) : List Address :=
  rows.map (fun r =>
    if ids.contains r.id then { r with isPrimary := false, updatedAt := now } else r)

/-- Two customers matching status `Active`, created at distinct instants. -/
def custActiveA : Customer :=
  { custV2 with id := 11, customerNumber := "CUST-11", createdAt := 10, version := 1 }

def custActiveB : Customer :=
  { custV2 with id := 12, customerNumber := "CUST-12", createdAt := 20, version := 1 }

def storeSearch : Store :=
  { customers := [custActiveA, custActiveB], addresses := [], documents := [],
    statusChanges := [] }

/-- A search for `Active` customers with `limit = 1`. -/
def searchReqLimit1 : SearchCustomersRequest :=
  { firstName := "", lastName := "", email := "", phone := "", status := "Active",
    fromDate := none, toDate := none, limit := 1, offset := 0 }

/-- The filters `SearchCustomers` builds from `searchReqLimit1`. -/
def searchFiltersLimit1 : SearchFilters :=
  { firstName := "", lastName := "", email := "", phone := "", status := "Active",
    fromDate := none, toDate := none, limit := 1, offset := 0 }

/-! # Theorems -/

/-- The alphabet lookup inverts the alphabet map on every sextet. -/
theorem b64Val_b64Char : ∀ n < 64, b64Val (b64Char n) = some n := by decide

/-- No alphabet character is the padding character. -/
theorem b64Char_ne_61 : ∀ n < 64, b64Char n ≠ 61 := by decide

/-- Base64 decoding inverts base64 encoding on byte strings. -/
theorem b64Decode_b64Encode :
    ∀ l : List Nat, (∀ b ∈ l, b < 256) → b64Decode (b64Encode l) = some l := by
  intro l
  induction l using listThreeRec with
  | h0 => intro _; rfl
  | h1 a =>
    intro hb
    have ha : a < 256 := hb a (by simp)
    have e1 := b64Val_b64Char (a / 4) (by omega)
    have e2 := b64Val_b64Char (a % 4 * 16) (by omega)
    simp [b64Encode, b64Decode, e1, e2]
    omega
  | h2 a b =>
    intro hb
    have ha : a < 256 := hb a (by simp)
    have hbb : b < 256 := hb b (by simp)
    have e1 := b64Val_b64Char (a / 4) (by omega)
    have e2 := b64Val_b64Char (a % 4 * 16 + b / 16) (by omega)
    have e3 := b64Val_b64Char (b % 16 * 4) (by omega)
    have n3 := b64Char_ne_61 (b % 16 * 4) (by omega)
    simp [b64Encode, b64Decode, e1, e2, e3, n3]
    omega
  | h3 a b c rest ih =>
    intro hb
    have ha : a < 256 := hb a (by simp)
    have hbb : b < 256 := hb b (by simp)
    have hc : c < 256 := hb c (by simp)
    have hrest : ∀ x ∈ rest, x < 256 := fun x hx => hb x (by simp [hx])
    have e1 := b64Val_b64Char (a / 4) (by omega)
    have e2 := b64Val_b64Char (a % 4 * 16 + b / 16) (by omega)
    have e3 := b64Val_b64Char (b % 16 * 4 + c / 64) (by omega)
    have e4 := b64Val_b64Char (c % 64) (by omega)
    have n3 := b64Char_ne_61 (b % 16 * 4 + c / 64) (by omega)
    have n4 := b64Char_ne_61 (c % 64) (by omega)
    simp [b64Encode, b64Decode, e1, e2, e3, e4, n3, n4, ih hrest]
    omega

/-- Claim C8: for every valid 32-byte key and every byte string, including
the empty one, decrypting the encryption returns the original (empty input
passes through both operations unencrypted).  Stated relative to the
correctness contract of the underlying AES-GCM primitive `A`
(`aeadOpen` inverts `gcmSeal`), which is the Go standard library's. -/
theorem C8_decrypt_encrypt_roundtrip (A : AEAD) (key nonce plaintext : List Nat)
    (hkey : key.length = 32) (hnonce : nonce.length = gcmNonceSize)
    (hnb : ∀ x ∈ nonce, x < 256)
    (hsb : ∀ x ∈ A.gcmSeal key nonce plaintext, x < 256)
    (hopen : A.aeadOpen key nonce (A.gcmSeal key nonce plaintext) = some plaintext) :
    Decrypt A key (Encrypt A key nonce plaintext) = .ok plaintext := by
  by_cases hp : plaintext = []
  · subst hp
    simp [Encrypt, Decrypt]
  · have hbytes : ∀ x ∈ nonce ++ A.gcmSeal key nonce plaintext, x < 256 := by
      intro x hx
      rcases List.mem_append.mp hx with h | h
      · exact hnb x h
      · exact hsb x h
    have hdec := b64Decode_b64Encode _ hbytes
    have hlen : (nonce ++ A.gcmSeal key nonce plaintext).length = gcmNonceSize + (A.gcmSeal key nonce plaintext).length := by
      simp [List.length_append, hnonce]
    have htake : (nonce ++ A.gcmSeal key nonce plaintext).take gcmNonceSize = nonce := by
      rw [← hnonce]
      exact List.take_left nonce _
    have hdrop : (nonce ++ A.gcmSeal key nonce plaintext).drop gcmNonceSize = A.gcmSeal key nonce plaintext := by
      rw [← hnonce]
      exact List.drop_left nonce _
    have hne : b64Encode (nonce ++ A.gcmSeal key nonce plaintext) ≠ [] := by
      rcases nonce with _ | ⟨n1, _ | ⟨n2, _ | ⟨n3, rest⟩⟩⟩ <;>
        simp [gcmNonceSize] at hnonce
      simp [b64Encode]
    have hnlt : ¬ (nonce ++ A.gcmSeal key nonce plaintext).length < gcmNonceSize := by
      rw [List.length_append, hnonce]
      omega
    rw [Encrypt, if_neg hp]
    simp only [Decrypt, if_neg hne, hdec, if_neg hnlt, htake, hdrop, hopen]

/-- Witness for C8: a concrete 32-byte key, 12-byte nonce and two-byte
plaintext round-trip through the modelled encryptor. -/
theorem C8_roundtrip_witness :
    (List.replicate 32 0).length = 32 ∧
    (List.range 12).length = gcmNonceSize ∧
    (∀ x ∈ List.range 12, x < 256) ∧
    (∀ x ∈ idAEAD.gcmSeal (List.replicate 32 0) (List.range 12) [72, 105], x < 256) ∧
    Decrypt idAEAD (List.replicate 32 0)
      (Encrypt idAEAD (List.replicate 32 0) (List.range 12) [72, 105]) = .ok [72, 105] :=
  ⟨by decide, by decide, by decide, by decide,
   C8_decrypt_encrypt_roundtrip idAEAD (List.replicate 32 0) (List.range 12) [72, 105]
     (by decide) (by decide) (by decide) (by decide) rfl⟩

/-- Claim C6: over the five customer statuses, `ValidateStatusTransition`
succeeds exactly on the edges of the claimed transition table
(`Pending -> {Active, Closed}`, `Active -> {Inactive, Suspended, Closed}`,
`Inactive -> {Active, Suspended, Closed}`,
`Suspended -> {Active, Inactive, Closed}`, `Closed -> {}`), and on every
non-edge it fails with the error naming both states. -/
theorem C6_status_transition_table (s1 s2 : String)
    (h1 : s1 ∈ allCustomerStatuses) (h2 : s2 ∈ allCustomerStatuses) :
    (ValidateStatusTransition s1 s2 = none ↔ (s1, s2) ∈ claimedTransitionPairs) ∧
    ((s1, s2) ∉ claimedTransitionPairs →
      ValidateStatusTransition s1 s2 =
        some ("invalid status transition from " ++ s1 ++ " to " ++ s2)) := by
  fin_cases h1 <;> fin_cases h2 <;> exact (by decide)

/-- Witness for C6 at the pair (Pending, Active). -/
theorem C6_transition_witness :
    "Pending" ∈ allCustomerStatuses ∧ "Active" ∈ allCustomerStatuses ∧
    ((ValidateStatusTransition "Pending" "Active" = none ↔
       ("Pending", "Active") ∈ claimedTransitionPairs) ∧
     (("Pending", "Active") ∉ claimedTransitionPairs →
       ValidateStatusTransition "Pending" "Active" =
         some ("invalid status transition from " ++ "Pending" ++ " to " ++ "Active"))) :=
  ⟨by decide, by decide,
   C6_status_transition_table "Pending" "Active" (by decide) (by decide)⟩

/-- Claim C4 (refuted; the code contradicts its own tests): creating Ada
Lovelace with tax identifier "123-45-6789" and no country code does not
succeed.  `ValidateTaxID`'s default branch applies `^[A-Z0-9]{5,20}$`,
which excludes the hyphens, so the creation validator returns exactly the
tax-id format error and `CreateCustomer` returns InvalidArgument without
touching the store, for every repository and store. -/
theorem C4_create_ada_rejected {σ : Type} (R : Repo σ) (freshId : UUID)
    (custNum : String) (st : σ) :
    ValidateTaxID "123-45-6789" "" = some ⟨"tax_id", "invalid tax ID format"⟩ ∧
    ValidateCustomerCreate clkAda adaCreateReq =
      [⟨"tax_id", "invalid tax ID format"⟩] ∧
    CustomerService.CreateCustomer R clkAda freshId custNum st adaCreateReq =
      .error (.invalidArgument [⟨"tax_id", "invalid tax ID format"⟩]) := by
  refine ⟨by decide, by decide, ?_⟩
  simp only [CustomerService.CreateCustomer]
  rw [show ValidateCustomerCreate clkAda adaCreateReq =
        [⟨"tax_id", "invalid tax ID format"⟩] from by decide]
  simp

/-- Claim C5: the Record Store's `UpdateCustomer` on a store holding a row
with the customer's identifier succeeds exactly when the stored version
equals the version the in-memory customer carries, making the stored
version that version plus one; on a mismatch it fails with the
optimistic-lock error, returning no successor store (the persisted row is
unchanged). -/
theorem C5_pg_update_optimistic_lock (now : Time) (st : Store) (c r : Customer)
    (hnodup : (st.customers.map Customer.id).Nodup)
    (hr : r ∈ st.customers) (hid : r.id = c.id) :
    (r.version = c.version →
      pgUpdateCustomer now st c =
        .ok ({ c with updatedAt := now, version := c.version + 1 },
             { st with customers := st.customers.map (fun x =>
                 if x.id = c.id then { c with updatedAt := now, version := c.version + 1 }
                 else x) })) ∧
    (r.version ≠ c.version →
      pgUpdateCustomer now st c = .error (.optimisticLock c.id)) := by
  have inj := List.inj_on_of_nodup_map hnodup
  constructor
  · intro hv
    have hany : st.customers.any
        (fun x => x.id == c.id && x.version == c.version + 1 - 1) = true := by
      rw [List.any_eq_true]
      refine ⟨r, hr, ?_⟩
      simp [hid, hv]
    have hmap : ∀ x ∈ st.customers,
        (if (x.id == c.id && x.version == c.version + 1 - 1) = true then
           { c with updatedAt := now, version := c.version + 1 } else x) =
        (if x.id = c.id then { c with updatedAt := now, version := c.version + 1 }
         else x) := by
      intro x hx
      by_cases hxe : x.id = c.id
      · have hxr : x = r := inj hx hr (by rw [hxe, hid])
        subst hxr
        simp [hxe, hv]
      · simp [hxe]
    simp only [pgUpdateCustomer, hany, if_true]
    rw [List.map_congr_left hmap]
  · intro hv
    have hany : st.customers.any
        (fun x => x.id == c.id && x.version == c.version + 1 - 1) = false := by
      rw [List.any_eq_false]
      intro x hx
      simp only [Bool.and_eq_true, beq_iff_eq, not_and]
      intro hxe
      have hxr : x = r := inj hx hr (by rw [hxe, hid])
      subst hxr
      omega
    simp only [pgUpdateCustomer, hany]
    simp

/-- Witness for C5 at the concrete one-row store whose row has version 2. -/
theorem C5_witness :
    (storeV2.customers.map Customer.id).Nodup ∧ custV2 ∈ storeV2.customers ∧
    ((custV2.version = custV2.version →
       pgUpdateCustomer 5 storeV2 custV2 =
         .ok ({ custV2 with updatedAt := 5, version := custV2.version + 1 },
              { storeV2 with customers := storeV2.customers.map (fun x =>
                  if x.id = custV2.id then
                    { custV2 with updatedAt := 5, version := custV2.version + 1 }
                  else x) })) ∧
     (custV2.version ≠ custV2.version →
       pgUpdateCustomer 5 storeV2 custV2 = .error (.optimisticLock custV2.id))) :=
  ⟨by decide, by decide,
   C5_pg_update_optimistic_lock 5 storeV2 custV2 custV2 (by decide) (by decide) rfl⟩

/-- Claim C10: whenever `SearchCustomers` succeeds, the response's `Total`
field equals the length of the returned page — not the number of rows
matching the filters, as the second conjunct shows on a store with two
matching rows and `limit = 1`. -/
theorem C10_total_equals_page_length {σ : Type} (R : Repo σ) (st : σ)
    (req : SearchCustomersRequest) (resp : CustomerService.SearchCustomersResponse)
    (h : CustomerService.SearchCustomers R st req = .ok resp) :
    resp.total = (resp.customers.length : Int) ∧
    (∃ r1, CustomerService.SearchCustomers (pgRepo 0) storeSearch searchReqLimit1 = .ok r1 ∧
       r1.total = 1 ∧ r1.customers.length = 1 ∧
       (storeSearch.customers.filter (matchesFilters searchFiltersLimit1)).length = 2) := by
  constructor
  · simp only [CustomerService.SearchCustomers] at h
    split at h
    · exact absurd h (by simp)
    · split at h
      · exact absurd h (by simp)
      · injection h with h1
        subst h1
        rfl
  · exact ⟨{ customers := [custActiveB], total := 1 }, by decide, by decide, by decide,
           by decide⟩

/-- Witness for C10 at the concrete PostgreSQL store. -/
theorem C10_search_witness :
    ({ customers := [custActiveB], total := 1 } :
        CustomerService.SearchCustomersResponse).total =
      (({ customers := [custActiveB], total := 1 } :
          CustomerService.SearchCustomersResponse).customers.length : Int) ∧
    (∃ r1, CustomerService.SearchCustomers (pgRepo 0) storeSearch searchReqLimit1 = .ok r1 ∧
       r1.total = 1 ∧ r1.customers.length = 1 ∧
       (storeSearch.customers.filter (matchesFilters searchFiltersLimit1)).length = 2) :=
  C10_total_equals_page_length (pgRepo 0) storeSearch searchReqLimit1
    { customers := [custActiveB], total := 1 } (by decide)

/-- Counterexample to C9 as stated: against a record store whose customer
update fails with the optimistic-lock error (the pattern of the source's own
`MockRepository` with `nextErr`), `UpdateCustomerStatus` surfaces the error
as Internal — not as the Conflict/Aborted signal the claim requires for
every versioned customer update. -/
theorem C9_counterexample_status_internal :
    CustomerService.UpdateCustomerStatus (lockFailRepo custPending []) 99 clk0 ()
        activateReq =
      .error (.internal "failed to update customer status: optimistic lock error") := by
  decide

/-- Claim C9 as amended: against any record store whose reads succeed and
whose customer update fails with the optimistic-lock error, the service
layer maps the failure to Aborted only in `UpdateCustomer`; both
`UpdateCustomerStatus` and the auto-activation inside `AddDocument` wrap it
as an Internal error. -/
theorem C9_amended_lock_error_mapping {σ : Type} (R : Repo σ) (st : σ)
    (c : Customer) (k : UUID) (docs : List CustomerDocument) (clk : Clock)
    (freshId : UUID) (updReq : UpdateCustomerRequest)
    (stReq : UpdateCustomerStatusRequest) (docReq : AddDocumentRequest)
    (cid1 cid2 cid3 : UUID)
    (hget : ∀ s x, R.getCustomerByID s x = .ok c)
    (hupd : ∀ s x, R.updateCustomer s x = .error (.optimisticLock k))
    (hadd : ∀ s d, R.addDocument s d = .ok (d, s))
    (hdocs : ∀ s x, R.getCustomerDocuments s x = .ok docs)
    (hver : docs.any (fun d => CustomerService.isIdentityDocument d.documentType &&
              d.verificationStatus == VerificationStatusVerified) = true)
    (hpend : c.status = CustomerStatusPending)
    (hvalU : ValidateCustomerUpdate clk updReq = []) (hidU : updReq.id = some cid1)
    (hidS : stReq.id = some cid2) (hnsS : stReq.newStatus ≠ "") (hrS : stReq.reason ≠ "")
    (htrans : ValidateStatusTransition c.status stReq.newStatus = none)
    (hvalD : ValidateDocument clk docReq = []) (hidD : docReq.customerId = some cid3) :
    CustomerService.UpdateCustomer R clk st updReq =
      .error (.aborted "customer was modified by another process") ∧
    CustomerService.UpdateCustomerStatus R freshId clk st stReq =
      .error (.internal "failed to update customer status: optimistic lock error") ∧
    CustomerService.AddDocument R freshId clk st docReq =
      .error (.internal "failed to update customer status: optimistic lock error") := by
  refine ⟨?_, ?_, ?_⟩
  · simp only [CustomerService.UpdateCustomer, hvalU, hidU, hget, hupd]
    simp
  · simp only [CustomerService.UpdateCustomerStatus, hidS, hget, htrans, hupd]
    simp [hnsS, hrS, RepoErr.message]
  · simp only [CustomerService.AddDocument, hvalD, hidD, hget, hadd, hpend, hdocs,
               hver, hupd]
    simp [RepoErr.message]

/-- Witness for the amended C9, at the mock repository holding a Pending
customer with a verified passport already on file. -/
theorem C9_amended_witness :
    CustomerService.UpdateCustomer (lockFailRepo custPending [verifiedPassport]) clk0 ()
        staleUpdateReq =
      .error (.aborted "customer was modified by another process") ∧
    CustomerService.UpdateCustomerStatus (lockFailRepo custPending [verifiedPassport])
        99 clk0 () activateReq =
      .error (.internal "failed to update customer status: optimistic lock error") ∧
    CustomerService.AddDocument (lockFailRepo custPending [verifiedPassport])
        99 clk0 () passportReq =
      .error (.internal "failed to update customer status: optimistic lock error") :=
  C9_amended_lock_error_mapping (lockFailRepo custPending [verifiedPassport]) ()
    custPending 1 [verifiedPassport] clk0 99 staleUpdateReq activateReq passportReq
    1 1 1 (fun _ _ => rfl) (fun _ _ => rfl) (fun _ _ => rfl) (fun _ _ => rfl)
    (by decide) rfl (by decide) rfl rfl (by decide) (by decide) (by decide)
    (by decide) rfl

/-- The partial-update application never touches the identifier. -/
theorem applyUpdateFields_id (c : Customer) (req : UpdateCustomerRequest) :
    (CustomerService.applyUpdateFields c req).id = c.id := by
  cases hdob : req.dateOfBirth <;> cases hupd : req.updatedBy <;>
    simp [CustomerService.applyUpdateFields, hdob, hupd, apply_ite (Customer.id)]

/-- The partial-update application never touches the version. -/
theorem applyUpdateFields_version (c : Customer) (req : UpdateCustomerRequest) :
    (CustomerService.applyUpdateFields c req).version = c.version := by
  cases hdob : req.dateOfBirth <;> cases hupd : req.updatedBy <;>
    simp [CustomerService.applyUpdateFields, hdob, hupd, apply_ite (Customer.version)]

/-- A request that passes the update validator carries a nonzero version. -/
theorem validateUpdate_version_ne_zero {clk : Clock} {req : UpdateCustomerRequest}
    (hval : ValidateCustomerUpdate clk req = []) : req.version ≠ 0 := by
  intro h0
  simp [ValidateCustomerUpdate, h0] at hval

/-- The update validator treats all nonzero versions alike. -/
theorem validateUpdate_version_invariant {clk : Clock} {req : UpdateCustomerRequest}
    {v : Int} (hv : v ≠ 0) (h0 : req.version ≠ 0) :
    ValidateCustomerUpdate clk { req with version := v } =
      ValidateCustomerUpdate clk req := by
  simp [ValidateCustomerUpdate, hv, h0]

/-- Counterexample to C1 as stated: replaying a previously successful update
with the original, now-stale version 1 against a store whose persisted row
has version 2 does not fail with an optimistic-lock error — it succeeds,
changes the email, and bumps the persisted version to 3. -/
theorem C1_counterexample_stale_update_succeeds :
    (CustomerService.UpdateCustomer (pgRepo 5) clk0 storeV2 staleUpdateReq).toOption.map
        (fun p => (p.1.email, p.1.version, p.2.customers.map Customer.version)) =
      some ("ada.l@example.com", 3, [3]) := by
  decide

/-- Claim C1 as amended: `UpdateCustomer` requires the request version to be
nonzero but otherwise ignores it — it reloads the current row and submits
the update with the current persisted version, so for any request that
passes validation on an existing customer the update succeeds with the
version bumped by one, and the result is invariant under replacing the
request's version by any other nonzero value (in particular a stale
one). -/
theorem C1_amended_request_version_ignored (now : Time) (clk : Clock) (st : Store)
    (req : UpdateCustomerRequest) (cid : UUID) (c : Customer)
    (hval : ValidateCustomerUpdate clk req = [])
    (hid : req.id = some cid)
    (hget : pgGetCustomerByID st cid = .ok c) :
    (∃ st1, CustomerService.UpdateCustomer (pgRepo now) clk st req =
        .ok ({ CustomerService.applyUpdateFields c req with
                 updatedAt := now, version := c.version + 1 }, st1)) ∧
    (∀ v : Int, v ≠ 0 →
      CustomerService.UpdateCustomer (pgRepo now) clk st { req with version := v } =
        CustomerService.UpdateCustomer (pgRepo now) clk st req) := by
  constructor
  · have hc : st.customers.find? (fun r => r.id == cid) = some c := by
      unfold pgGetCustomerByID at hget
      split at hget
      next c2 heq =>
        injection hget with h1
        rw [← h1]
        exact heq
      next heq => exact absurd hget (by simp)
    have hcmem : c ∈ st.customers := List.mem_of_find?_eq_some hc
    have hcid : c.id = cid := by
      have := List.find?_some hc
      simpa using this
    have hany : st.customers.any (fun x =>
        x.id == (CustomerService.applyUpdateFields c req).id &&
        x.version == (CustomerService.applyUpdateFields c req).version + 1 - 1) = true := by
      rw [List.any_eq_true]
      refine ⟨c, hcmem, ?_⟩
      simp [applyUpdateFields_id, applyUpdateFields_version, hcid]
    have hrun : CustomerService.UpdateCustomer (pgRepo now) clk st req =
        .ok ({ CustomerService.applyUpdateFields c req with
                 updatedAt := now, version := c.version + 1 },
             { st with customers := st.customers.map (fun x =>
                 if (x.id == (CustomerService.applyUpdateFields c req).id &&
                     x.version ==
                       (CustomerService.applyUpdateFields c req).version + 1 - 1) = true then
                   { CustomerService.applyUpdateFields c req with
                       updatedAt := now, version := c.version + 1 }
                 else x) }) := by
      simp only [CustomerService.UpdateCustomer, hval, hid]
      simp only [show (pgRepo now).getCustomerByID = pgGetCustomerByID from rfl, hget]
      simp only [show (pgRepo now).updateCustomer = pgUpdateCustomer now from rfl]
      simp only [pgUpdateCustomer, hany, if_true]
      simp only [applyUpdateFields_version]
      simp
    exact ⟨_, hrun⟩
  · intro v hv
    have h0 := validateUpdate_version_ne_zero hval
    simp only [CustomerService.UpdateCustomer,
               validateUpdate_version_invariant hv h0]
    rfl

/-- Witness for the amended C1 at the version-2 store and the stale
request. -/
theorem C1_amended_witness :
    (∃ st1, CustomerService.UpdateCustomer (pgRepo 5) clk0 storeV2 staleUpdateReq =
        .ok ({ CustomerService.applyUpdateFields custV2 staleUpdateReq with
                 updatedAt := 5, version := custV2.version + 1 }, st1)) ∧
    (∀ v : Int, v ≠ 0 →
      CustomerService.UpdateCustomer (pgRepo 5) clk0 storeV2
          { staleUpdateReq with version := v } =
        CustomerService.UpdateCustomer (pgRepo 5) clk0 storeV2 staleUpdateReq) :=
  C1_amended_request_version_ignored 5 clk0 storeV2 staleUpdateReq 1 custV2
    (by decide) rfl (by decide)

/-- A successful `GetCustomerByID` read yields a stored row with the
requested identifier. -/
theorem pgGet_ok_elim {st : Store} {cid : UUID} {c : Customer}
    (hget : pgGetCustomerByID st cid = .ok c) :
    c ∈ st.customers ∧ c.id = cid := by
  unfold pgGetCustomerByID at hget
  split at hget
  next c2 heq =>
    injection hget with h1
    subst h1
    refine ⟨List.mem_of_find?_eq_some heq, ?_⟩
    have := List.find?_some heq
    simpa using this
  next heq => exact absurd hget (by simp)

/-- Inserting into a sorted list permutes consing. -/
theorem perm_insertSorted {α : Type} (le : α → α → Bool) (a : α) (l : List α) :
    (insertSorted le a l).Perm (a :: l) := by
  induction l with
  | nil => simp [insertSorted]
  | cons b bs ih =>
    simp only [insertSorted]
    split
    · exact List.Perm.refl _
    · exact (ih.cons b).trans (List.Perm.swap a b bs)

/-- Sorting permutes the input: a SQL `ORDER BY` returns the same rows. -/
theorem perm_sortBy {α : Type} (le : α → α → Bool) (l : List α) :
    (sortBy le l).Perm l := by
  induction l with
  | nil => simp [sortBy]
  | cons a as ih => exact (perm_insertSorted le a (sortBy le as)).trans (ih.cons a)

/-- Membership is invariant under `sortBy`. -/
theorem mem_sortBy {α : Type} {le : α → α → Bool} {l : List α} {x : α} :
    x ∈ sortBy le l ↔ x ∈ l :=
  (perm_sortBy le l).mem_iff

/-- Counterexample to C3 as stated: a successful `UpdateCustomerStatus` on a
Pending customer persists the new status and returns the StatusChange record
in the response, but the persisted StatusChange records stay empty — nothing
is appended to storage (there is not even a table for it in the schema). -/
theorem C3_counterexample_no_audit_row :
    (CustomerService.UpdateCustomerStatus (pgRepo 5) 50 clk0 storePending
        activateReq).toOption.map
        (fun p => (p.1.status, p.2.1, p.2.2.statusChanges)) =
      some (CustomerStatusActive,
            { id := 50, customerId := 1, previousStatus := "Pending",
              newStatus := "Active", reason := "identity verified",
              changedBy := 7, changedAt := 0 }, ([] : List StatusChange)) := by
  decide

/-- Claim C3 as amended: every successful `UpdateCustomerStatus` call
persists the new status and constructs exactly one StatusChange record
capturing previous status, new status, reason, actor and timestamp, which is
returned in the response (and logged) — but the record is not persisted: the
stored StatusChange records are unchanged. -/
theorem C3_amended_audit_record_not_persisted (now : Time) (clk : Clock)
    (freshId : UUID) (st : Store) (req : UpdateCustomerStatusRequest) (cid : UUID)
    (c : Customer)
    (hid : req.id = some cid) (hns : req.newStatus ≠ "") (hr : req.reason ≠ "")
    (hget : pgGetCustomerByID st cid = .ok c)
    (htrans : ValidateStatusTransition c.status req.newStatus = none) :
    ∃ st1,
      CustomerService.UpdateCustomerStatus (pgRepo now) freshId clk st req =
        .ok ({ c with status := req.newStatus,
                      updatedBy := (match req.changedBy with
                                    | some u => some u
                                    | none => c.updatedBy),
                      updatedAt := now, version := c.version + 1 },
             { id := freshId, customerId := cid, previousStatus := c.status,
               newStatus := req.newStatus, reason := req.reason,
               changedBy := req.changedBy.getD 0, changedAt := clk.now }, st1) ∧
      { c with status := req.newStatus,
               updatedBy := (match req.changedBy with
                             | some u => some u
                             | none => c.updatedBy),
               updatedAt := now, version := c.version + 1 } ∈ st1.customers ∧
      st1.statusChanges = st.statusChanges := by
  obtain ⟨hcmem, hcid⟩ := pgGet_ok_elim hget
  have hany : st.customers.any
      (fun x => x.id == c.id && x.version == c.version + 1 - 1) = true := by
    rw [List.any_eq_true]
    exact ⟨c, hcmem, by simp⟩
  have hrun : CustomerService.UpdateCustomerStatus (pgRepo now) freshId clk st req =
      .ok ({ c with status := req.newStatus,
                    updatedBy := (match req.changedBy with
                                  | some u => some u
                                  | none => c.updatedBy),
                    updatedAt := now, version := c.version + 1 },
           { id := freshId, customerId := cid, previousStatus := c.status,
             newStatus := req.newStatus, reason := req.reason,
             changedBy := req.changedBy.getD 0, changedAt := clk.now },
           { st with customers := st.customers.map (fun x =>
               if (x.id == c.id && x.version == c.version + 1 - 1) = true then
                 { c with status := req.newStatus,
                          updatedBy := (match req.changedBy with
                                        | some u => some u
                                        | none => c.updatedBy),
                          updatedAt := now, version := c.version + 1 }
               else x) }) := by
    simp only [CustomerService.UpdateCustomerStatus, hid, hns, hr]
    simp only [show (pgRepo now).getCustomerByID = pgGetCustomerByID from rfl, hget]
    simp only [htrans]
    simp only [show (pgRepo now).updateCustomer = pgUpdateCustomer now from rfl]
    simp only [pgUpdateCustomer, hany, if_true]
    simp
  refine ⟨_, hrun, ?_, rfl⟩
  exact List.mem_map.mpr ⟨c, hcmem, by simp⟩

/-- Witness for the amended C3 at the Pending store and the activation
request. -/
theorem C3_amended_witness :
    ∃ st1,
      CustomerService.UpdateCustomerStatus (pgRepo 5) 50 clk0 storePending
          activateReq =
        .ok ({ custPending with
                 status := activateReq.newStatus,
                 updatedBy := (match activateReq.changedBy with
                               | some u => some u
                               | none => custPending.updatedBy),
                 updatedAt := 5, version := custPending.version + 1 },
             { id := 50, customerId := 1, previousStatus := custPending.status,
               newStatus := activateReq.newStatus, reason := activateReq.reason,
               changedBy := activateReq.changedBy.getD 0, changedAt := clk0.now }, st1) ∧
      { custPending with
          status := activateReq.newStatus,
          updatedBy := (match activateReq.changedBy with
                        | some u => some u
                        | none => custPending.updatedBy),
          updatedAt := 5, version := custPending.version + 1 } ∈ st1.customers ∧
      st1.statusChanges = storePending.statusChanges :=
  C3_amended_audit_record_not_persisted 5 clk0 50 storePending activateReq 1
    custPending rfl (by decide) (by decide) (by decide) (by decide)

/-- Counterexample to C2 as stated: adding a passport via `AddDocument` to a
Pending customer with no other verified identity document does not
transition the customer to Active — the document is persisted with
verification status Pending, so the auto-activation check never fires and
the customer stays Pending. -/
theorem C2_counterexample_passport_does_not_activate :
    (CustomerService.AddDocument (pgRepo 3) 42 clk0 storePending
        passportReq).toOption.map
        (fun p => (p.1.verificationStatus, p.2.customers.map Customer.status)) =
      some (VerificationStatusPending, [CustomerStatusPending]) := by
  decide

/-- Claim C2 as amended: `AddDocument` always persists the new document with
verification status Pending, so the new document itself never supplies the
verified identity document; a Pending customer ends up Active after the call
exactly when the previously stored documents already contain a verified
identity document.  In particular adding a passport to a Pending customer
with no other verified identity document leaves the customer Pending, and a
verified non-identity document never triggers the transition. -/
theorem C2_amended_activation_requires_prior_verified (now : Time) (clk : Clock)
    (freshId : UUID) (st : Store) (req : AddDocumentRequest) (cid : UUID)
    (c : Customer)
    (hval : ValidateDocument clk req = []) (hid : req.customerId = some cid)
    (hget : pgGetCustomerByID st cid = .ok c)
    (hpend : c.status = CustomerStatusPending)
    (hnodupC : (st.customers.map Customer.id).Nodup)
    (hfresh : st.documents.any (fun r => r.id == freshId) = false) :
    ∃ doc1 st1,
      CustomerService.AddDocument (pgRepo now) freshId clk st req = .ok (doc1, st1) ∧
      doc1.verificationStatus = VerificationStatusPending ∧
      doc1 ∈ st1.documents ∧
      ((∃ x ∈ st1.customers, x.id = cid ∧ x.status = CustomerStatusActive) ↔
        (∃ d ∈ st.documents, d.customerId = cid ∧
           CustomerService.isIdentityDocument d.documentType = true ∧
           d.verificationStatus = VerificationStatusVerified)) := by
  obtain ⟨hcmem, hcid⟩ := pgGet_ok_elim hget
  have inj := List.inj_on_of_nodup_map hnodupC
  have hiff : (sortBy docOrder ((st.documents ++
        [({ id := freshId, customerId := cid, documentType := req.documentType,
            documentNumber := req.documentNumber,
            issuingAuthority := req.issuingAuthority,
            issuingCountry := req.issuingCountry,
            issueDate := req.issueDate.getD 0, expiryDate := req.expiryDate.getD 0,
            verificationStatus := VerificationStatusPending, verifiedAt := none,
            verifiedBy := none, createdAt := now,
            updatedAt := now } : CustomerDocument)]).filter (fun d => d.customerId == cid))).any
          (fun d => CustomerService.isIdentityDocument d.documentType &&
            d.verificationStatus == VerificationStatusVerified) = true ↔
      (∃ d ∈ st.documents, d.customerId = cid ∧
         CustomerService.isIdentityDocument d.documentType = true ∧
         d.verificationStatus = VerificationStatusVerified) := by
    rw [List.any_eq_true]
    constructor
    · rintro ⟨d, hd, hPd⟩
      have hd2 := mem_sortBy.mp hd
      rw [List.mem_filter] at hd2
      obtain ⟨hmem2, hc2⟩ := hd2
      rw [Bool.and_eq_true, beq_iff_eq] at hPd
      rcases List.mem_append.mp hmem2 with hA | hB
      · exact ⟨d, hA, by simpa using hc2, hPd.1, hPd.2⟩
      · exfalso
        have hdD : d = _ := List.mem_singleton.mp hB
        rw [hdD] at hPd
        simp [VerificationStatusPending, VerificationStatusVerified] at hPd
    · rintro ⟨d, hd, hdc, hidd, hver⟩
      refine ⟨d, ?_, ?_⟩
      · rw [mem_sortBy, List.mem_filter]
        exact ⟨List.mem_append_left _ hd, by simp [hdc]⟩
      · simp [hidd, hver]
  by_cases hB : (sortBy docOrder ((st.documents ++
        [({ id := freshId, customerId := cid, documentType := req.documentType,
            documentNumber := req.documentNumber,
            issuingAuthority := req.issuingAuthority,
            issuingCountry := req.issuingCountry,
            issueDate := req.issueDate.getD 0, expiryDate := req.expiryDate.getD 0,
            verificationStatus := VerificationStatusPending, verifiedAt := none,
            verifiedBy := none, createdAt := now,
            updatedAt := now } : CustomerDocument)]).filter (fun d => d.customerId == cid))).any
          (fun d => CustomerService.isIdentityDocument d.documentType &&
            d.verificationStatus == VerificationStatusVerified) = true
  · have hany : st.customers.any
        (fun x => x.id == c.id && x.version == c.version + 1 - 1) = true := by
      rw [List.any_eq_true]
      exact ⟨c, hcmem, by simp⟩
    have hrun : CustomerService.AddDocument (pgRepo now) freshId clk st req =
        .ok ({ id := freshId, customerId := cid, documentType := req.documentType,
               documentNumber := req.documentNumber,
               issuingAuthority := req.issuingAuthority,
               issuingCountry := req.issuingCountry,
               issueDate := req.issueDate.getD 0,
               expiryDate := req.expiryDate.getD 0,
               verificationStatus := VerificationStatusPending, verifiedAt := none,
               verifiedBy := none, createdAt := now, updatedAt := now },
             { st with
                 documents := st.documents ++
                   [{ id := freshId, customerId := cid,
                      documentType := req.documentType,
                      documentNumber := req.documentNumber,
                      issuingAuthority := req.issuingAuthority,
                      issuingCountry := req.issuingCountry,
                      issueDate := req.issueDate.getD 0,
                      expiryDate := req.expiryDate.getD 0,
                      verificationStatus := VerificationStatusPending,
                      verifiedAt := none, verifiedBy := none, createdAt := now,
                      updatedAt := now }],
                 customers := st.customers.map (fun x =>
                   if (x.id == c.id && x.version == c.version + 1 - 1) = true then
                     { c with status := CustomerStatusActive, updatedAt := now,
                              version := c.version + 1 }
                   else x) }) := by
      simp only [CustomerService.AddDocument, hval, hid]
      simp only [show (pgRepo now).getCustomerByID = pgGetCustomerByID from rfl, hget]
      simp only [show (pgRepo now).addDocument = pgAddDocument now from rfl]
      simp only [pgAddDocument, hfresh]
      simp only [Bool.false_eq_true, if_false]
      simp only [hpend, if_true]
      simp only [show (pgRepo now).getCustomerDocuments = pgGetCustomerDocuments
                   from rfl]
      simp only [pgGetCustomerDocuments]
      simp only [hB, if_true]
      simp only [show (pgRepo now).updateCustomer = pgUpdateCustomer now from rfl]
      simp only [pgUpdateCustomer, hany, if_true]
      simp
    refine ⟨_, _, hrun, rfl, by simp, ?_⟩
    rw [hiff] at hB
    refine iff_of_true ?_ hB
    refine ⟨{ c with
                status := CustomerStatusActive, updatedAt := now,
                version := c.version + 1 }, ?_, hcid, rfl⟩
    exact List.mem_map.mpr ⟨c, hcmem, by simp⟩
  · have hrun : CustomerService.AddDocument (pgRepo now) freshId clk st req =
        .ok ({ id := freshId, customerId := cid, documentType := req.documentType,
               documentNumber := req.documentNumber,
               issuingAuthority := req.issuingAuthority,
               issuingCountry := req.issuingCountry,
               issueDate := req.issueDate.getD 0,
               expiryDate := req.expiryDate.getD 0,
               verificationStatus := VerificationStatusPending, verifiedAt := none,
               verifiedBy := none, createdAt := now, updatedAt := now },
             { st with
                 documents := st.documents ++
                   [{ id := freshId, customerId := cid,
                      documentType := req.documentType,
                      documentNumber := req.documentNumber,
                      issuingAuthority := req.issuingAuthority,
                      issuingCountry := req.issuingCountry,
                      issueDate := req.issueDate.getD 0,
                      expiryDate := req.expiryDate.getD 0,
                      verificationStatus := VerificationStatusPending,
                      verifiedAt := none, verifiedBy := none, createdAt := now,
                      updatedAt := now }] }) := by
      simp only [CustomerService.AddDocument, hval, hid]
      simp only [show (pgRepo now).getCustomerByID = pgGetCustomerByID from rfl, hget]
      simp only [show (pgRepo now).addDocument = pgAddDocument now from rfl]
      simp only [pgAddDocument, hfresh]
      simp only [Bool.false_eq_true, if_false]
      simp only [hpend, if_true]
      simp only [show (pgRepo now).getCustomerDocuments = pgGetCustomerDocuments
                   from rfl]
      simp only [pgGetCustomerDocuments]
      simp only [Bool.not_eq_true] at hB
      simp only [hB, Bool.false_eq_true, if_false]
      simp
    refine ⟨_, _, hrun, rfl, by simp, ?_⟩
    rw [hiff] at hB
    refine iff_of_false ?_ hB
    rintro ⟨x, hx, hxid, hxact⟩
    have hxc : x = c := inj hx hcmem (by rw [hxid, hcid])
    rw [hxc] at hxact
    rw [hpend] at hxact
    exact absurd hxact (by decide)

/-- Witness for the amended C2 at the Pending store with no documents. -/
theorem C2_amended_witness :
    ∃ doc1 st1,
      CustomerService.AddDocument (pgRepo 3) 42 clk0 storePending passportReq =
        .ok (doc1, st1) ∧
      doc1.verificationStatus = VerificationStatusPending ∧
      doc1 ∈ st1.documents ∧
      ((∃ x ∈ st1.customers, x.id = 1 ∧ x.status = CustomerStatusActive) ↔
        (∃ d ∈ storePending.documents, d.customerId = 1 ∧
           CustomerService.isIdentityDocument d.documentType = true ∧
           d.verificationStatus = VerificationStatusVerified)) :=
  C2_amended_activation_requires_prior_verified 3 clk0 42 storePending passportReq 1
    custPending (by decide) rfl (by decide) rfl (by decide) rfl

/-- One `UpdateAddress` issued by the demote loop, against a store with
distinct address ids, exactly demotes the targeted row. -/
theorem pgUpdateAddress_demote (now : Time) (st : Store) (a : Address)
    (hmem : a ∈ st.addresses) (hnodup : (st.addresses.map Address.id).Nodup) :
    pgUpdateAddress now st { a with isPrimary := false } =
      .ok { st with addresses := demoteIds now [a.id] st.addresses } := by
  have inj := List.inj_on_of_nodup_map hnodup
  unfold pgUpdateAddress demoteIds
  refine congrArg Except.ok ?_
  show Store.mk _ _ _ _ = Store.mk _ _ _ _
  refine congrArg (fun rows => Store.mk st.customers rows st.documents st.statusChanges)
    (List.map_congr_left ?_)
  intro r hr
  by_cases hre : r.id = a.id
  · have hra : r = a := inj hr hmem hre
    subst hra
    simp
  · simp [hre]

/-- Demoting preserves the address identifiers. -/
theorem demoteIds_map_id (now : Time) (S : List UUID) (rows : List Address) :
    (demoteIds now S rows).map Address.id = rows.map Address.id := by
  unfold demoteIds
  rw [List.map_map]
  apply List.map_congr_left
  intro r _
  by_cases h : r.id ∈ S <;> simp [h, Function.comp]

/-- Demoting by two id sets in sequence demotes by their union. -/
theorem demoteIds_demoteIds (now : Time) (S T : List UUID) (rows : List Address) :
    demoteIds now S (demoteIds now T rows) = demoteIds now (T ++ S) rows := by
  unfold demoteIds
  rw [List.map_map]
  apply List.map_congr_left
  intro r _
  by_cases hT : r.id ∈ T <;> by_cases hS : r.id ∈ S <;>
    simp [hT, hS, Function.comp]

/-- A row whose id is not demoted stays in the demoted list unchanged. -/
theorem mem_demoteIds_of_not_target (now : Time) (S : List UUID)
    {rows : List Address} {b : Address} (hb : b ∈ rows)
    (hbid : S.contains b.id = false) : b ∈ demoteIds now S rows := by
  have hb2 : b.id ∉ S := by simpa using hbid
  exact List.mem_map.mpr ⟨b, hb, by simp [hb2]⟩

/-- After demoting every primary row of a customer, the customer has no
primary address left. -/
theorem countPrimary_demoteIds_eq_zero (now : Time) (S : List UUID)
    (rows : List Address) (cid : UUID)
    (h : ∀ r ∈ rows, r.customerId = cid → r.isPrimary = true →
      S.contains r.id = true) :
    countPrimary (demoteIds now S rows) cid = 0 := by
  unfold countPrimary
  rw [List.length_eq_zero, List.filter_eq_nil_iff]
  intro x hx
  obtain ⟨r, hr, rfl⟩ := List.mem_map.mp hx
  by_cases hS : r.id ∈ S
  · simp [hS]
  · have hS2 : S.contains r.id = false := by simpa using hS
    simp only [hS2, Bool.false_eq_true, if_false, Bool.and_eq_true, beq_iff_eq,
               not_and]
    intro hc hp
    have := h r hr hc hp
    rw [hS2] at this
    cases this

/-- Every row of the demoted list belonging to the customer is
non-primary, provided the demoted id set covers the customer's primary
rows. -/
theorem demoteIds_nonprimary (now : Time) (S : List UUID) (rows : List Address)
    (cid : UUID)
    (h : ∀ r ∈ rows, r.customerId = cid → r.isPrimary = true →
      S.contains r.id = true) :
    ∀ x ∈ demoteIds now S rows, x.customerId = cid → x.isPrimary = false := by
  intro x hx hxc
  obtain ⟨r, hr, rfl⟩ := List.mem_map.mp hx
  by_cases hS : r.id ∈ S
  · simp [hS]
  · have hS2 : S.contains r.id = false := by simpa using hS
    simp only [hS2, Bool.false_eq_true, if_false] at hxc ⊢
    cases hp : r.isPrimary
    · rfl
    · have := h r hr hxc hp
      rw [hS2] at this
      cases this

/-- Splitting `countPrimary` over an appended row. -/
theorem countPrimary_append (rows : List Address) (a : Address) (cid : UUID) :
    countPrimary (rows ++ [a]) cid =
      countPrimary rows cid +
        (if (a.customerId == cid && a.isPrimary) = true then 1 else 0) := by
  unfold countPrimary
  rw [List.filter_append, List.length_append]
  congr 1
  by_cases h : (a.customerId == cid && a.isPrimary) = true <;> simp [h]

/-- The demote loop of `AddAddress`, run against the PostgreSQL store on the
customer's fetched address list, succeeds and leaves exactly the demoted
store. -/
theorem unsetPrimaries_pg (now : Time) :
    ∀ (l : List Address) (st : Store),
      (∀ a ∈ l, a ∈ st.addresses) → (l.map Address.id).Nodup →
      (st.addresses.map Address.id).Nodup →
      CustomerService.unsetPrimaries (pgRepo now) st l =
        .ok { st with
                addresses :=
                  demoteIds now ((l.filter (fun a => a.isPrimary)).map Address.id)
                    st.addresses } := by
  intro l
  induction l with
  | nil =>
    intro st _ _ _
    simp [CustomerService.unsetPrimaries, demoteIds]
  | cons a rest ih =>
    intro st hmem hnodl hnods
    have hamem : a ∈ st.addresses := hmem a (by simp)
    have hanotin : a.id ∉ rest.map Address.id := by
      rw [List.map_cons, List.nodup_cons] at hnodl
      exact hnodl.1
    cases hp : a.isPrimary with
    | false =>
      simp only [CustomerService.unsetPrimaries, hp, Bool.false_eq_true, if_false]
      rw [ih st (fun b hb => hmem b (by simp [hb]))
          (by rw [List.map_cons, List.nodup_cons] at hnodl; exact hnodl.2) hnods]
      simp [hp]
    | true =>
      simp only [CustomerService.unsetPrimaries, hp, if_true]
      rw [show (pgRepo now).updateAddress = pgUpdateAddress now from rfl]
      rw [pgUpdateAddress_demote now st a hamem hnods]
      have hmem2 : ∀ b ∈ rest,
          b ∈ ({ st with addresses := demoteIds now [a.id] st.addresses } : Store).addresses := by
        intro b hb
        refine mem_demoteIds_of_not_target now [a.id] (hmem b (by simp [hb])) ?_
        have : b.id ≠ a.id := by
          intro he
          exact hanotin (he ▸ List.mem_map_of_mem Address.id hb)
        simp [List.contains, this]
      have hnods2 :
          (({ st with addresses := demoteIds now [a.id] st.addresses } : Store).addresses.map
            Address.id).Nodup := by
        show ((demoteIds now [a.id] st.addresses).map Address.id).Nodup
        rw [demoteIds_map_id]
        exact hnods
      show CustomerService.unsetPrimaries (pgRepo now)
          { st with addresses := demoteIds now [a.id] st.addresses } rest = _
      rw [ih _ hmem2
          (by rw [List.map_cons, List.nodup_cons] at hnodl; exact hnodl.2) hnods2]
      show _ = Except.ok _
      refine congrArg Except.ok ?_
      show Store.mk _ _ _ _ = Store.mk _ _ _ _
      rw [demoteIds_demoteIds]
      have : (a :: rest).filter (fun x => x.isPrimary) =
          a :: rest.filter (fun x => x.isPrimary) := by
        simp [List.filter_cons, hp]
      rw [this, List.map_cons]
      rfl

/-- Claim C7: a successful `AddAddress` preserves the at-most-one-primary
invariant; the first address of a customer becomes primary even when
`is_primary` was unset in the request; and an address added as primary
demotes every previously primary address of that customer. -/
theorem C7_primary_invariant (now : Time) (clk : Clock) (freshId : UUID)
    (st : Store) (req : AddAddressRequest) (cid : UUID) (c : Customer)
    (hval : ValidateAddress req = []) (hid : req.customerId = some cid)
    (hget : pgGetCustomerByID st cid = .ok c)
    (hnodup : (st.addresses.map Address.id).Nodup)
    (hfresh : st.addresses.any (fun r => r.id == freshId) = false)
    (hinv : countPrimary st.addresses cid ≤ 1) :
    ∃ a1 st1,
      CustomerService.AddAddress (pgRepo now) freshId clk st req = .ok (a1, st1) ∧
      countPrimary st1.addresses cid ≤ 1 ∧
      (st.addresses.filter (fun a => a.customerId == cid) = [] ∧
          req.isPrimary = false → a1.isPrimary = true) ∧
      (req.isPrimary = true →
        ∀ r ∈ st1.addresses, r.customerId = cid → r.id ≠ freshId →
          r.isPrimary = false) := by
  have hmemF : ∀ a ∈ sortBy addrOrder (st.addresses.filter (fun a => a.customerId == cid)), a ∈ st.addresses := by
    intro a ha
    exact List.mem_of_mem_filter (mem_sortBy.mp ha)
  have hnodF : ((sortBy addrOrder (st.addresses.filter (fun a => a.customerId == cid))).map Address.id).Nodup := by
    rw [((perm_sortBy addrOrder (st.addresses.filter (fun a => a.customerId == cid))).map Address.id).nodup_iff]
    exact hnodup.sublist ((List.filter_sublist _).map Address.id)
  cases hRP : req.isPrimary with
  | true =>
    have hcover : ∀ r ∈ st.addresses, r.customerId = cid → r.isPrimary = true → (((sortBy addrOrder (st.addresses.filter (fun a => a.customerId == cid))).filter (fun a => a.isPrimary)).map Address.id).contains r.id = true := by
      intro r hr hc hp
      have h3 : r ∈ (sortBy addrOrder (st.addresses.filter (fun a => a.customerId == cid))).filter (fun a => a.isPrimary) :=
        List.mem_filter.mpr ⟨mem_sortBy.mpr (List.mem_filter.mpr ⟨hr, by simp [hc]⟩), hp⟩
      simpa using List.mem_map_of_mem Address.id h3
    have hUP := unsetPrimaries_pg now (sortBy addrOrder (st.addresses.filter (fun a => a.customerId == cid))) st hmemF hnodF hnodup
    have hfresh2 : (demoteIds now (((sortBy addrOrder (st.addresses.filter (fun a => a.customerId == cid))).filter (fun a => a.isPrimary)).map Address.id) st.addresses).any (fun r => r.id == freshId) = false := by
      rw [List.any_eq_false]
      intro x hx
      obtain ⟨r, hr, rfl⟩ := List.mem_map.mp hx
      have hrne : r.id ≠ freshId := by
        intro he
        have habs : st.addresses.any (fun r => r.id == freshId) = true :=
          List.any_eq_true.mpr ⟨r, hr, by simp [he]⟩
        rw [hfresh] at habs
        cases habs
      by_cases hS : r.id ∈ (((sortBy addrOrder (st.addresses.filter (fun a => a.customerId == cid))).filter (fun a => a.isPrimary)).map Address.id) <;> simp [hS, hrne]
    have hrun : CustomerService.AddAddress (pgRepo now) freshId clk st req = .ok ({ id := freshId, customerId := cid, addressType := req.addressType, street1 := req.street1, street2 := stringPtr req.street2, city := req.city, state := req.state, postalCode := req.postalCode, country := req.country, isPrimary := true, validFrom := req.validFrom.getD clk.now, validTo := req.validTo, createdAt := now, updatedAt := now }, { st with addresses := demoteIds now (((sortBy addrOrder (st.addresses.filter (fun a => a.customerId == cid))).filter (fun a => a.isPrimary)).map Address.id) st.addresses ++ [{ id := freshId, customerId := cid, addressType := req.addressType, street1 := req.street1, street2 := stringPtr req.street2, city := req.city, state := req.state, postalCode := req.postalCode, country := req.country, isPrimary := true, validFrom := req.validFrom.getD clk.now, validTo := req.validTo, createdAt := now, updatedAt := now }] }) := by
      simp only [CustomerService.AddAddress, hval, hid]
      simp only [show (pgRepo now).getCustomerByID = pgGetCustomerByID from rfl, hget]
      simp only [show (pgRepo now).getCustomerAddresses = pgGetCustomerAddresses from rfl]
      simp only [pgGetCustomerAddresses]
      simp only [hRP, if_true]
      rw [hUP]
      simp only [Except.map]
      simp only [show (pgRepo now).addAddress = pgAddAddress now from rfl]
      simp only [pgAddAddress, hfresh2]
      simp only [Bool.false_eq_true, if_false]
      simp
    refine ⟨_, _, hrun, ?_, ?_, ?_⟩
    · show countPrimary (demoteIds now (((sortBy addrOrder (st.addresses.filter (fun a => a.customerId == cid))).filter (fun a => a.isPrimary)).map Address.id) st.addresses ++ [{ id := freshId, customerId := cid, addressType := req.addressType, street1 := req.street1, street2 := stringPtr req.street2, city := req.city, state := req.state, postalCode := req.postalCode, country := req.country, isPrimary := true, validFrom := req.validFrom.getD clk.now, validTo := req.validTo, createdAt := now, updatedAt := now }]) cid ≤ 1
      rw [countPrimary_append, countPrimary_demoteIds_eq_zero now (((sortBy addrOrder (st.addresses.filter (fun a => a.customerId == cid))).filter (fun a => a.isPrimary)).map Address.id) st.addresses cid hcover]
      simp
    · rintro ⟨_, habs⟩
      exact absurd habs (by decide)
    · intro _ r hr hrc hrne
      rcases List.mem_append.mp hr with hleft | hright
      · exact demoteIds_nonprimary now (((sortBy addrOrder (st.addresses.filter (fun a => a.customerId == cid))).filter (fun a => a.isPrimary)).map Address.id) st.addresses cid hcover r hleft hrc
      · exfalso
        apply hrne
        have hra1 : r = { id := freshId, customerId := cid, addressType := req.addressType, street1 := req.street1, street2 := stringPtr req.street2, city := req.city, state := req.state, postalCode := req.postalCode, country := req.country, isPrimary := true, validFrom := req.validFrom.getD clk.now, validTo := req.validTo, createdAt := now, updatedAt := now } := List.mem_singleton.mp hright
        rw [hra1]
  | false =>
    cases hB : (sortBy addrOrder (st.addresses.filter (fun a => a.customerId == cid))).any (fun a => a.isPrimary) with
    | true =>
      have hrun : CustomerService.AddAddress (pgRepo now) freshId clk st req = .ok ({ id := freshId, customerId := cid, addressType := req.addressType, street1 := req.street1, street2 := stringPtr req.street2, city := req.city, state := req.state, postalCode := req.postalCode, country := req.country, isPrimary := false, validFrom := req.validFrom.getD clk.now, validTo := req.validTo, createdAt := now, updatedAt := now }, { st with addresses := st.addresses ++ [{ id := freshId, customerId := cid, addressType := req.addressType, street1 := req.street1, street2 := stringPtr req.street2, city := req.city, state := req.state, postalCode := req.postalCode, country := req.country, isPrimary := false, validFrom := req.validFrom.getD clk.now, validTo := req.validTo, createdAt := now, updatedAt := now }] }) := by
        simp only [CustomerService.AddAddress, hval, hid]
        simp only [show (pgRepo now).getCustomerByID = pgGetCustomerByID from rfl, hget]
        simp only [show (pgRepo now).getCustomerAddresses = pgGetCustomerAddresses from rfl]
        simp only [pgGetCustomerAddresses]
        simp only [hRP, Bool.false_eq_true, if_false]
        simp only [hB, if_true]
        simp only [show (pgRepo now).addAddress = pgAddAddress now from rfl]
        simp only [pgAddAddress, hfresh]
        simp only [Bool.false_eq_true, if_false]
        simp
      refine ⟨_, _, hrun, ?_, ?_, ?_⟩
      · show countPrimary (st.addresses ++ [{ id := freshId, customerId := cid, addressType := req.addressType, street1 := req.street1, street2 := stringPtr req.street2, city := req.city, state := req.state, postalCode := req.postalCode, country := req.country, isPrimary := false, validFrom := req.validFrom.getD clk.now, validTo := req.validTo, createdAt := now, updatedAt := now }]) cid ≤ 1
        rw [countPrimary_append]
        simpa using hinv
      · rintro ⟨h1, _⟩
        rw [h1] at hB
        simp [sortBy] at hB
      · intro habs
        exact absurd habs (by decide)
    | false =>
      have hzero : countPrimary st.addresses cid = 0 := by
        unfold countPrimary
        rw [List.length_eq_zero, List.filter_eq_nil_iff]
        intro r hr
        simp only [Bool.and_eq_true, beq_iff_eq, not_and]
        intro hc hp
        have hrF : r ∈ sortBy addrOrder (st.addresses.filter (fun a => a.customerId == cid)) := mem_sortBy.mpr (List.mem_filter.mpr ⟨hr, by simp [hc]⟩)
        have habs : (sortBy addrOrder (st.addresses.filter (fun a => a.customerId == cid))).any (fun a => a.isPrimary) = true :=
          List.any_eq_true.mpr ⟨r, hrF, hp⟩
        rw [hB] at habs
        cases habs
      have hrun : CustomerService.AddAddress (pgRepo now) freshId clk st req = .ok ({ id := freshId, customerId := cid, addressType := req.addressType, street1 := req.street1, street2 := stringPtr req.street2, city := req.city, state := req.state, postalCode := req.postalCode, country := req.country, isPrimary := true, validFrom := req.validFrom.getD clk.now, validTo := req.validTo, createdAt := now, updatedAt := now }, { st with addresses := st.addresses ++ [{ id := freshId, customerId := cid, addressType := req.addressType, street1 := req.street1, street2 := stringPtr req.street2, city := req.city, state := req.state, postalCode := req.postalCode, country := req.country, isPrimary := true, validFrom := req.validFrom.getD clk.now, validTo := req.validTo, createdAt := now, updatedAt := now }] }) := by
        simp only [CustomerService.AddAddress, hval, hid]
        simp only [show (pgRepo now).getCustomerByID = pgGetCustomerByID from rfl, hget]
        simp only [show (pgRepo now).getCustomerAddresses = pgGetCustomerAddresses from rfl]
        simp only [pgGetCustomerAddresses]
        simp only [hRP, Bool.false_eq_true, if_false]
        simp only [hB]
        simp only [Bool.false_eq_true, if_false]
        simp only [show (pgRepo now).addAddress = pgAddAddress now from rfl]
        simp only [pgAddAddress, hfresh]
        simp only [Bool.false_eq_true, if_false]
        simp
      refine ⟨_, _, hrun, ?_, ?_, ?_⟩
      · show countPrimary (st.addresses ++ [{ id := freshId, customerId := cid, addressType := req.addressType, street1 := req.street1, street2 := stringPtr req.street2, city := req.city, state := req.state, postalCode := req.postalCode, country := req.country, isPrimary := true, validFrom := req.validFrom.getD clk.now, validTo := req.validTo, createdAt := now, updatedAt := now }]) cid ≤ 1
        rw [countPrimary_append, hzero]
        simp
      · intro _
        rfl
      · intro habs
        exact absurd habs (by decide)

/-- Witness for C7: the first address, with `is_primary` unset, added to a
customer with no addresses. -/
theorem C7_invariant_witness :
    ∃ a1 st1,
      CustomerService.AddAddress (pgRepo 4) 77 clk0 storePending addressReq =
        .ok (a1, st1) ∧
      countPrimary st1.addresses 1 ≤ 1 ∧
      (storePending.addresses.filter (fun a => a.customerId == 1) = [] ∧
          addressReq.isPrimary = false → a1.isPrimary = true) ∧
      (addressReq.isPrimary = true →
        ∀ r ∈ st1.addresses, r.customerId = 1 → r.id ≠ 77 →
          r.isPrimary = false) :=
  C7_primary_invariant 4 clk0 77 storePending addressReq 1 custPending
    (by decide) rfl (by decide) (by decide) (by decide) (by decide)

end CoreBanking
